import Mathlib

/-!
# krsnygrzg/chat: the `/predict` proxy of `main.go`

A shallow embedding of `predictHandler` and `callOllama` together with the parts of the Go
standard library they call (`encoding/json`, `io.ReadAll`, `fmt.Errorf`, `http.Error`).

Conventions of the embedding:

* Go `string` and `[]byte` values are Lean `String`s, i.e. sequences of Unicode code points;
  byte sequences that are not valid UTF-8 are outside the model.
* Go `error` values are represented by the text their `Error()` method returns.
* A `float64` is kept as its IEEE-754 binary64 fields; the program performs no arithmetic on it.
* The outbound POST is an explicit effect: the handler returns the list of calls it issued, and
  the backend is a function from the call to what the HTTP client returns for it.
* The body of the outbound POST is the JSON document `json.Marshal` serialises, kept as a tree;
  the rendering of that tree to bytes is not modelled.
-/

namespace Chat

/-! ## Data model (`main.go` lines 14-39) -/

/-- A `float64`: sign bit, 11-bit biased exponent and 52-bit fraction. -/
structure Float64 where
  sign : Bool
  exponent : Nat
  fraction : Nat
deriving DecidableEq, Repr

/-- The zero value of `float64` (`+0.0`). -/
def Float64.zero : Float64 := ⟨false, 0, 0⟩

/-- Go's `f == 0`: true of `+0.0` and of `-0.0`. -/
def Float64.isZero (f : Float64) : Bool := f.exponent == 0 && f.fraction == 0

/-- Go's `math.IsInf(f, 0) || math.IsNaN(f)`: the exponent field is all ones. -/
def Float64.isInfOrNaN (f : Float64) : Bool := f.exponent == 2047

/-- `type PromptRequest struct` (lines 14-18). -/
structure PromptRequest where
  Prompt : String
  MaxTokens : Int
  Temperature : Float64
deriving DecidableEq, Repr

/-- The zero value that `var req PromptRequest` declares. -/
def PromptRequest.zero : PromptRequest := ⟨"", 0, Float64.zero⟩

/-- `type Options struct` (lines 27-30). -/
structure Options where
  NumPredict : Int
  Temperature : Float64
deriving DecidableEq, Repr

/-- `type OllamaGenerateRequest struct` (lines 20-25); `Options` is a pointer, `none` is `nil`. -/
structure OllamaGenerateRequest where
  Model : String
  Prompt : String
  Stream : Bool
  Options : Option Options
deriving DecidableEq, Repr

/-- `type OllamaGenerateResponse struct` (lines 32-35). -/
structure OllamaGenerateResponse where
  Response : String
deriving DecidableEq, Repr

/-- `type APIResponse struct` (lines 37-39). -/
structure APIResponse where
  Generated : String
deriving DecidableEq, Repr

/-! ## JSON documents -/

/-- A JSON document read from a text. A number keeps the literal as written; object members
keep their order and their duplicates. -/
inductive JSON where
  | null
  | bool (b : Bool)
  | num (lit : String)
  | str (s : String)
  | arr (xs : List JSON)
  | obj (kvs : List (String × JSON))
deriving Repr

/-- A JSON document written by `json.Marshal`: numbers are the Go values being encoded. -/
inductive Doc where
  | str (s : String)
  | bool (b : Bool)
  | int (i : Int)
  | float (f : Float64)
  | obj (members : List (String × Doc))
deriving Repr

/-- The value of the first member named `k` of an object. -/
def Doc.member? (d : Doc) (k : String) : Option Doc :=
  match d with
  | .obj ms => (ms.find? (fun kv => kv.1 == k)).map (fun kv => kv.2)
  | _ => none

/-- The member names of an object, in order. -/
def Doc.keys (d : Doc) : List String :=
  match d with
  | .obj ms => ms.map (fun kv => kv.1)
  | _ => []

/-! ## `encoding/json`: the scanner

The scanner of `encoding/json` (`scanner.go`) as a recursive-descent reader that also builds the
document. It reports the same first offending character, with the same context text, as the
byte-at-a-time state machine of the library. -/

/-- The double quote `"`. -/
def dquote : Char := Char.ofNat 34

/-- The backslash. -/
def backslash : Char := Char.ofNat 92

/-- The single quote. -/
def squote : Char := Char.ofNat 39

/-- The opening brace of an object. -/
def lbrace : Char := Char.ofNat 123

/-- The closing brace of an object. -/
def rbrace : Char := Char.ofNat 125

/-- Result of reading something from the front of the input. -/
inductive Scan (α : Type) where
  /-- The item was read; `rest` is the input that follows it. -/
  | ok (a : α) (rest : List Char)
  /-- `SyntaxError`: "invalid character c" followed by the context. -/
  | bad (c : Char) (context : String)
  /-- The input ended inside the item. -/
  | eof
  /-- The recursion budget was used up (does not happen, see `scanValue_budget`). -/
  | fuel
deriving Repr

/-- `isSpace` of `scanner.go`. -/
def isSpace (c : Char) : Bool :=
  c == ' ' || c == '\t' || c == '\r' || c == '\n'

/-- Drop leading JSON white space. -/
def skipSpace : List Char → List Char
  | [] => []
  | c :: cs => if isSpace c then skipSpace cs else c :: cs

/-- A decimal digit `0` to `9`. -/
def isDigit (c : Char) : Bool := 48 ≤ c.toNat && c.toNat ≤ 57

/-- Value of a hexadecimal digit. -/
def hexVal (c : Char) : Option Nat :=
  if 48 ≤ c.toNat && c.toNat ≤ 57 then some (c.toNat - 48)
  else if 97 ≤ c.toNat && c.toNat ≤ 102 then some (c.toNat - 87)
  else if 65 ≤ c.toNat && c.toNat ≤ 70 then some (c.toNat - 55)
  else none

/-- Where the string reader stands: in plain text, after a backslash, or inside `\uXXXX` with
`k` digits read and value `v` so far. -/
inductive StrState where
  | plain
  | esc
  | hex (k v : Nat)
deriving DecidableEq, Repr

/-- U+FFFD, `unicode.ReplacementChar`. -/
def replacementChar : Char := Char.ofNat 0xFFFD

/-- Output for a high surrogate escape that no low surrogate escape followed. -/
def flushPending (pending : Option Nat) (acc : List Char) : List Char :=
  match pending with
  | none => acc
  | some _ => replacementChar :: acc

/-- The character(s) a completed `\uXXXX` escape of value `r` contributes (`unquote` of
`decode.go`): a low surrogate completes a pending high surrogate, a lone surrogate becomes
U+FFFD, a high surrogate waits for the next escape. Returns the new pending value and output. -/
def storeEscape (pending : Option Nat) (acc : List Char) (r : Nat) : Option Nat × List Char :=
  if 0xDC00 ≤ r ∧ r < 0xE000 then
    match pending with
    | some hi => (none, Char.ofNat ((hi - 0xD800) * 1024 + (r - 0xDC00) + 0x10000) :: acc)
    | none => (none, replacementChar :: acc)
  else if 0xD800 ≤ r ∧ r < 0xDC00 then
    (some r, flushPending pending acc)
  else
    (none, Char.ofNat r :: flushPending pending acc)

/-- Read a string literal whose opening quote has been consumed: the states `stateInString`,
`stateInStringEsc`, `stateInStringEscU*` of the scanner, fused with `unquote`. `acc` is the
text read so far, reversed. -/
def scanString : StrState → Option Nat → List Char → List Char → Scan String
  | _, _, _, [] => .eof
  | .plain, pending, acc, c :: cs =>
    if c = dquote then .ok (String.mk (flushPending pending acc).reverse) cs
    else if c = backslash then scanString .esc pending acc cs
    else if c.toNat < 32 then .bad c "in string literal"
    else scanString .plain none (c :: flushPending pending acc) cs
  | .esc, pending, acc, c :: cs =>
    if c = 'u' then scanString (.hex 0 0) pending acc cs
    else if c = dquote ∨ c = backslash ∨ c = '/' then
      scanString .plain none (c :: flushPending pending acc) cs
    else if c = 'b' then scanString .plain none (Char.ofNat 8 :: flushPending pending acc) cs
    else if c = 'f' then scanString .plain none (Char.ofNat 12 :: flushPending pending acc) cs
    else if c = 'n' then scanString .plain none ('\n' :: flushPending pending acc) cs
    else if c = 'r' then scanString .plain none ('\r' :: flushPending pending acc) cs
    else if c = 't' then scanString .plain none ('\t' :: flushPending pending acc) cs
    else .bad c "in string escape code"
  | .hex k v, pending, acc, c :: cs =>
    match hexVal c with
    | none => .bad c "in \\u hexadecimal character escape"
    | some h =>
      if k < 3 then scanString (.hex (k + 1) (v * 16 + h)) pending acc cs
      else
        let st := storeEscape pending acc (v * 16 + h)
        scanString .plain st.1 st.2 cs

/-- Read the rest of a literal `true`, `false` or `null` (states `stateT`, `stateTr`, ...). -/
def scanLiteral (name : String) (v : JSON) : List Char → List Char → Scan JSON
  | [], cs => .ok v cs
  | _ :: _, [] => .eof
  | e :: es, c :: cs =>
    if c = e then scanLiteral name v es cs
    else .bad c ("in literal " ++ name ++ " (expecting " ++ String.mk [squote, e, squote] ++ ")")

/-- The exponent part of a number, after `e` or `E` (states `stateE`, `stateESign`, `stateE0`).
`acc` is the literal so far. -/
def scanExponent (acc : List Char) (cs : List Char) : Scan String :=
  let signed : List Char × List Char :=
    match cs with
    | c :: cs1 => if c = '+' ∨ c = '-' then (acc ++ [c], cs1) else (acc, cs)
    | [] => (acc, cs)
  match signed.2 with
  | [] => .eof
  | c :: _ =>
    if isDigit c then
      .ok (String.mk (signed.1 ++ signed.2.takeWhile isDigit)) (signed.2.dropWhile isDigit)
    else .bad c "in exponent of numeric literal"

/-- The part of a number after its integer digits: an optional fraction (states `stateDot`,
`stateDot0`) and an optional exponent. -/
def scanFraction (acc : List Char) (cs : List Char) : Scan String :=
  match cs with
  | [] => .ok (String.mk acc) []
  | c :: cs1 =>
    if c = '.' then
      match cs1 with
      | [] => .eof
      | d :: _ =>
        if isDigit d then
          let acc1 := acc ++ c :: cs1.takeWhile isDigit
          match cs1.dropWhile isDigit with
          | [] => .ok (String.mk acc1) []
          | e :: cs2 =>
            if e = 'e' ∨ e = 'E' then scanExponent (acc1 ++ [e]) cs2
            else .ok (String.mk acc1) (e :: cs2)
        else .bad d "after decimal point in numeric literal"
    else if c = 'e' ∨ c = 'E' then scanExponent (acc ++ [c]) cs1
    else .ok (String.mk acc) (c :: cs1)

/-- The integer digits of a number (states `stateNeg`, `state0`, `state1`), then the rest. -/
def scanInteger (acc : List Char) (cs : List Char) : Scan String :=
  match cs with
  | [] => .eof
  | c :: cs1 =>
    if c = '0' then scanFraction (acc ++ [c]) cs1
    else if isDigit c then
      scanFraction (acc ++ c :: cs1.takeWhile isDigit) (cs1.dropWhile isDigit)
    else .bad c "in numeric literal"

/-- Read a number literal; the input starts with `-` or a digit. -/
def scanNumber (cs : List Char) : Scan String :=
  match cs with
  | [] => .eof
  | c :: cs1 => if c = '-' then scanInteger [c] cs1 else scanInteger [] cs

/-- The `maxNestingDepth` of `scanner.go`. -/
def maxNestingDepth : Nat := 10000

/-- Apply `f` to what was read. -/
def Scan.map {α β : Type} (f : α → β) : Scan α → Scan β
  | .ok a rest => .ok (f a) rest
  | .bad c ctx => .bad c ctx
  | .eof => .eof
  | .fuel => .fuel

mutual
/-- Read one JSON value (`stateBeginValue`), skipping white space before it. The first argument
bounds the recursion, `depth` is the number of enclosing arrays and objects. -/
def scanValue : Nat → Nat → List Char → Scan JSON
  | 0, _, _ => .fuel
  | n + 1, depth, cs =>
    match skipSpace cs with
    | [] => .eof
    | c :: rest =>
      if c = lbrace then
        if maxNestingDepth ≤ depth then .bad c "exceeded max depth"
        else
          match skipSpace rest with
          | [] => .eof
          | k :: rest1 =>
            if k = rbrace then .ok (.obj []) rest1
            else if k = dquote then scanMembers n (depth + 1) [] rest1
            else .bad k "looking for beginning of object key string"
      else if c = '[' then
        if maxNestingDepth ≤ depth then .bad c "exceeded max depth"
        else
          match skipSpace rest with
          | [] => .eof
          | k :: rest1 =>
            if k = ']' then .ok (.arr []) rest1
            else scanElems n (depth + 1) [] (k :: rest1)
      else if c = dquote then (scanString .plain none [] rest).map JSON.str
      else if c = '-' ∨ isDigit c then (scanNumber (c :: rest)).map JSON.num
      else if c = 't' then scanLiteral "true" (.bool true) ['r', 'u', 'e'] rest
      else if c = 'f' then scanLiteral "false" (.bool false) ['a', 'l', 's', 'e'] rest
      else if c = 'n' then scanLiteral "null" .null ['u', 'l', 'l'] rest
      else .bad c "looking for beginning of value"
/-- Read the elements of an array up to its `]`; `acc` holds the elements read, reversed. -/
def scanElems : Nat → Nat → List JSON → List Char → Scan JSON
  | 0, _, _, _ => .fuel
  | n + 1, depth, acc, cs =>
    match scanValue n depth cs with
    | .ok v rest =>
      match skipSpace rest with
      | [] => .eof
      | c :: rest1 =>
        if c = ',' then scanElems n depth (v :: acc) rest1
        else if c = ']' then .ok (.arr (v :: acc).reverse) rest1
        else .bad c "after array element"
    | .bad c ctx => .bad c ctx
    | .eof => .eof
    | .fuel => .fuel
/-- Read the members of an object up to its closing brace, starting right after the opening
quote of a key; `acc` holds the members read, reversed. -/
def scanMembers : Nat → Nat → List (String × JSON) → List Char → Scan JSON
  | 0, _, _, _ => .fuel
  | n + 1, depth, acc, cs =>
    match scanString .plain none [] cs with
    | .ok key rest =>
      match skipSpace rest with
      | [] => .eof
      | c :: rest1 =>
        if c = ':' then
          match scanValue n depth rest1 with
          | .ok v rest2 =>
            match skipSpace rest2 with
            | [] => .eof
            | d :: rest3 =>
              if d = ',' then
                match skipSpace rest3 with
                | [] => .eof
                | q :: rest4 =>
                  if q = dquote then scanMembers n depth ((key, v) :: acc) rest4
                  else .bad q "looking for beginning of object key string"
              else if d = rbrace then .ok (.obj ((key, v) :: acc).reverse) rest3
              else .bad d "after object key:value pair"
          | .bad e ctx => .bad e ctx
          | .eof => .eof
          | .fuel => .fuel
        else .bad c "after object key"
    | .bad c ctx => .bad c ctx
    | .eof => .eof
    | .fuel => .fuel
end

/-! ## `encoding/json`: `Decoder.Decode` -/

/-- What reading an HTTP body yields: the bytes that arrive, then end of file (`none`) or a
read error with the given text. -/
structure BodyStream where
  data : String
  readErr : Option String
deriving DecidableEq, Repr

/-- The function `io.ReadAll`: the bytes read until end of file or the first error, and that
error. -/
def ioReadAll (b : BodyStream) : String × Option String := (b.data, b.readErr)

/-- The lower-case hexadecimal digit of value `n < 16`. -/
def hexDigit (n : Nat) : Char := if n < 10 then Char.ofNat (48 + n) else Char.ofNat (87 + n)

/-- First byte of the UTF-8 encoding of a code point above U+007F. -/
def leadByte (n : Nat) : Nat :=
  if n < 0x800 then 0xC0 + n / 64 else if n < 0x10000 then 0xE0 + n / 4096 else 0xF0 + n / 262144

/-- The function `quoteChar` of `scanner.go`, applied to the byte the scanner stopped at. For a
character outside ASCII that byte is the first of its UTF-8 encoding. -/
def quoteChar (c : Char) : String :=
  let n := c.toNat
  if c = squote then String.mk [squote, backslash, squote, squote]
  else if c = dquote then String.mk [squote, dquote, squote]
  else if 128 ≤ n then String.mk [squote, Char.ofNat (leadByte n), squote]
  else if c = backslash then String.mk [squote, backslash, backslash, squote]
  else if n = 7 then String.mk [squote, backslash, 'a', squote]
  else if n = 8 then String.mk [squote, backslash, 'b', squote]
  else if n = 12 then String.mk [squote, backslash, 'f', squote]
  else if n = 10 then String.mk [squote, backslash, 'n', squote]
  else if n = 13 then String.mk [squote, backslash, 'r', squote]
  else if n = 9 then String.mk [squote, backslash, 't', squote]
  else if n = 11 then String.mk [squote, backslash, 'v', squote]
  else if n < 32 ∨ n = 127 then
    String.mk [squote, backslash, 'x', hexDigit (n / 16), hexDigit (n % 16), squote]
  else String.mk [squote, c, squote]

/-- Text of a `SyntaxError` raised at character `c`. -/
def invalidCharacter (c : Char) (context : String) : String :=
  "invalid character " ++ quoteChar c ++ " " ++ context

/-- Whether a value is an array or an object: the scanner reports its end at the closing
bracket, without looking at the byte after it. -/
def JSON.isComposite : JSON → Bool
  | .arr _ => true
  | .obj _ => true
  | _ => false

/-- What `Decoder.readValue` makes of the scan of the buffered bytes `cs`. The value ends at
the closing bracket of an array or object, or at the first byte that cannot continue a string,
number or literal; the scanner notes a complaint about such a byte for the next call
(`stateEndTop`) but reports the end of the value, so the value is returned and the bytes after
it are not examined. When the bytes end right after a string, number or literal, the value
is returned at end of file, and a read error is returned in its place. A read error is
otherwise reported only if it occurs before the value is complete. -/
def frameValue (readErr : Option String) (cs : List Char) : Scan JSON → Except String JSON
  | .ok v rest =>
    if v.isComposite then .ok v
    else
      match rest with
      | [] =>
        match readErr with
        | none => .ok v
        | some e => .error e
      | _ :: _ => .ok v
  | .bad c ctx => .error (invalidCharacter c ctx)
  | .eof =>
    match readErr with
    | some e => .error e
    | none => if skipSpace cs = [] then .error "EOF" else .error "unexpected EOF"
  | .fuel => .error "unexpected EOF"

/-- The method `Decoder.readValue` on a fresh decoder: the first JSON value of the stream. -/
def readValue (body : BodyStream) : Except String JSON :=
  frameValue body.readErr body.data.data
    (scanValue (2 * body.data.data.length + 2) 0 body.data.data)

/-! ## `strconv`: numbers -/

/-- Value of a run of decimal digits. -/
def digitsValue (ds : List Char) : Nat := ds.foldl (fun v d => v * 10 + (d.toNat - 48)) 0

/-- `strconv.ParseInt(s, 10, 64)` on a JSON number literal: `none` if the literal has a
fraction or an exponent, or lies outside the `int64` range. -/
def parseInt (lit : String) : Option Int :=
  let cs := lit.data
  let neg : Bool := cs.head? == some '-'
  let ds := if neg then cs.tail else cs
  if ds ≠ [] ∧ ds.all isDigit = true then
    let v := digitsValue ds
    if neg then (if v ≤ 2 ^ 63 then some (-(v : Int)) else none)
    else (if v < 2 ^ 63 then some (v : Int) else none)
  else none

/-- Assemble the binary64 of magnitude `q * 2 ^ k`, where `q < 2 ^ 53` and either
`2 ^ 52 ≤ q` (a normal number) or `k = -1074` (a subnormal number or zero); `none` if the
exponent is out of range. -/
def packFloat (neg : Bool) (q : Nat) (k : Int) : Option Float64 :=
  if q < 2 ^ 52 then some ⟨neg, 0, q⟩
  else if 2047 ≤ k + 1075 then none
  else some ⟨neg, (k + 1075).toNat, q - 2 ^ 52⟩

/-- The numerator and denominator of `a / (b * 2 ^ k)`. -/
def scaleBy (a b : Nat) (k : Int) : Nat × Nat :=
  if 0 ≤ k then (a, b * 2 ^ k.toNat) else (a * 2 ^ (-k).toNat, b)

/-- The quotient `n / d` rounded to the nearest integer, ties to even. -/
def roundHalfEven (n d : Nat) : Nat :=
  if d < 2 * (n % d) ∨ (2 * (n % d) = d ∧ (n / d) % 2 = 1) then n / d + 1 else n / d

/-- The number of halvings that bring `n` below 2 (at most `budget` of them), added to
`count`. -/
def halvings : Nat → Nat → Nat → Nat
  | 0, _, count => count
  | budget + 1, n, count => if 2 ≤ n then halvings budget (n / 2) (count + 1) else count

/-- The floor of the binary logarithm of a positive number. -/
def log2 (n : Nat) : Nat := halvings n n 0

/-- The binary exponent `k` of the unit in the last place of the binary64 nearest to the
positive rational `a / b`: the least `k ≥ -1074` with `a / (b * 2 ^ k) < 2 ^ 53`. -/
def ulpExponent (a b : Nat) : Int :=
  let k1 : Int := (log2 a : Int) - (log2 b : Int) - 53
  let k2 : Int := if 2 ^ 53 ≤ (scaleBy a b k1).1 / (scaleBy a b k1).2 then k1 + 1 else k1
  if k2 < -1074 then -1074 else k2

/-- The binary64 nearest to the positive rational `a / b` (ties to even), `none` if it rounds
to infinity. -/
def roundFloat (neg : Bool) (a b : Nat) : Option Float64 :=
  let k := ulpExponent a b
  let q := roundHalfEven (scaleBy a b k).1 (scaleBy a b k).2
  if q = 2 ^ 53 then packFloat neg (2 ^ 52) (k + 1) else packFloat neg q k

/-- Value of the digits of a decimal exponent as `strconv` reads them: a digit is taken into
account only while the value so far is below 10000. -/
def exponentDigits (ds : List Char) : Nat :=
  ds.foldl (fun e d => if e < 10000 then e * 10 + (d.toNat - 48) else e) 0

/-- The decimal exponent written after `e` or `E`. -/
def exponentValue : List Char → Int
  | '-' :: ds => -(exponentDigits ds : Int)
  | '+' :: ds => (exponentDigits ds : Int)
  | ds => (exponentDigits ds : Int)

/-- The binary64 nearest to `m * 10 ^ e`. -/
def decimalToFloat (neg : Bool) (m : Nat) (e : Int) : Option Float64 :=
  if m = 0 then some ⟨neg, 0, 0⟩
  else if 0 ≤ e then roundFloat neg (m * 10 ^ e.toNat) 1
  else roundFloat neg m (10 ^ (-e).toNat)

/-- `strconv.ParseFloat(s, 64)` on a JSON number literal: the binary64 nearest to the decimal
value read, `none` when it is out of range (an underflow gives zero, not an error). The
decimal exponent is read by `exponentDigits`, so its digits are ignored once the value
has reached 10000, as the library ignores them. The library keeps at most 800 significant digits of the
mantissa on its fallback path; a literal with more than 800 significant digits before its
decimal point, for which that path miscounts the digits, is not reproduced here. -/
def parseFloat (lit : String) : Option Float64 :=
  let cs := lit.data
  let neg : Bool := cs.head? == some '-'
  let ds := if neg then cs.tail else cs
  let ip := ds.takeWhile isDigit
  let r1 := ds.dropWhile isDigit
  let fp := match r1 with
    | '.' :: t => t.takeWhile isDigit
    | _ => []
  let r2 := match r1 with
    | '.' :: t => t.dropWhile isDigit
    | _ => r1
  let e10 : Int := match r2 with
    | _ :: t => exponentValue t
    | [] => 0
  decimalToFloat neg (digitsValue (ip ++ fp)) (e10 - (fp.length : Int))

/-- `%d` of `fmt` for an `int`. -/
def formatInt (i : Int) : String :=
  match i with
  | Int.ofNat n => Nat.repr n
  | Int.negSucc n => "-" ++ Nat.repr (n + 1)

/-! ## `encoding/json`: storing a decoded value into a struct (`decode.go`) -/

/-- The fold of a rune that `foldName` compares struct field names by: ASCII letters fold to
upper case, and U+212A (Kelvin sign) and U+017F (long s) are the only runes outside ASCII in
the fold orbit of an ASCII letter. No other rune folds to an ASCII character, so leaving those
unchanged does not alter which keys match the ASCII field names of this program. -/
def foldRune (c : Char) : Char :=
  if 97 ≤ c.toNat ∧ c.toNat ≤ 122 then Char.ofNat (c.toNat - 32)
  else if c.toNat = 0x212A then 'K'
  else if c.toNat = 0x17F then 'S'
  else c

/-- The function `foldName`: a name with every rune folded. -/
def foldName (s : String) : List Char := s.data.map foldRune

/-- The struct field an object key selects among the JSON names `names`: an exact match is
preferred, else the first name equal under case folding. -/
def findField (names : List String) (key : String) : Option String :=
  match names.find? (fun n => n == key) with
  | some n => some n
  | none => names.find? (fun n => foldName n == foldName key)

/-- The `Value` an `UnmarshalTypeError` names for a JSON value stored into a field that cannot
hold it. -/
def JSON.valueName : JSON → String
  | .null => "null"
  | .bool _ => "bool"
  | .num _ => "number"
  | .str _ => "string"
  | .arr _ => "array"
  | .obj _ => "object"

/-- Text of an `UnmarshalTypeError` raised inside struct `struct` at field `field`. -/
def fieldTypeError (value struct field typ : String) : String :=
  "json: cannot unmarshal " ++ value ++ " into Go struct field " ++ struct ++ "." ++ field ++
    " of type " ++ typ

/-- Text of an `UnmarshalTypeError` raised at the top-level value. -/
def valueTypeError (value typ : String) : String :=
  "json: cannot unmarshal " ++ value ++ " into Go value of type " ++ typ

/-- The method `decodeState.saveError`: only the first error is kept. -/
def saveError (saved : Option String) (err : String) : Option String :=
  match saved with
  | none => some err
  | some e => some e

/-- Store a JSON value into a `string` field: a string is stored, `null` leaves the field as
it is, anything else is a type error. -/
def storeString (struct field : String) (v : JSON) (old : String) (saved : Option String) :
    String × Option String :=
  match v with
  | .str s => (s, saved)
  | .null => (old, saved)
  | other => (old, saveError saved (fieldTypeError other.valueName struct field "string"))

/-- Store a JSON value into an `int` field. -/
def storeInt (struct field : String) (v : JSON) (old : Int) (saved : Option String) :
    Int × Option String :=
  match v with
  | .num lit =>
    match parseInt lit with
    | some i => (i, saved)
    | none => (old, saveError saved (fieldTypeError ("number " ++ lit) struct field "int"))
  | .null => (old, saved)
  | other => (old, saveError saved (fieldTypeError other.valueName struct field "int"))

/-- Store a JSON value into a `float64` field. -/
def storeFloat (struct field : String) (v : JSON) (old : Float64) (saved : Option String) :
    Float64 × Option String :=
  match v with
  | .num lit =>
    match parseFloat lit with
    | some f => (f, saved)
    | none => (old, saveError saved (fieldTypeError ("number " ++ lit) struct field "float64"))
  | .null => (old, saved)
  | other => (old, saveError saved (fieldTypeError other.valueName struct field "float64"))

/-- One member of the object being decoded into a `PromptRequest` (the loop body of
`decodeState.object`): the key selects a field by its `json` tag, unknown keys are skipped. -/
def storePromptMember (st : PromptRequest × Option String) (kv : String × JSON) :
    PromptRequest × Option String :=
  match findField ["prompt", "max_tokens", "temperature"] kv.1 with
  | none => st
  | some f =>
    if f = "prompt" then
      let r := storeString "PromptRequest" "prompt" kv.2 st.1.Prompt st.2
      ({ st.1 with Prompt := r.1 }, r.2)
    else if f = "max_tokens" then
      let r := storeInt "PromptRequest" "max_tokens" kv.2 st.1.MaxTokens st.2
      ({ st.1 with MaxTokens := r.1 }, r.2)
    else
      let r := storeFloat "PromptRequest" "temperature" kv.2 st.1.Temperature st.2
      ({ st.1 with Temperature := r.1 }, r.2)

/-- Decode a JSON value into `req` as `decodeState.unmarshal` does for a `*PromptRequest`: an
object is stored member by member and the first type error, if any, is returned at the end;
`null` leaves the struct untouched; any other value is a type error. -/
def unmarshalPromptRequest (v : JSON) (req : PromptRequest) : Except String PromptRequest :=
  match v with
  | .obj kvs =>
    match kvs.foldl storePromptMember (req, none) with
    | (r, none) => .ok r
    | (_, some e) => .error e
  | .null => .ok req
  | other => .error (valueTypeError other.valueName "main.PromptRequest")

/-- `json.NewDecoder(r.Body).Decode(&req)` for `var req PromptRequest` (line 81). -/
def decodePromptRequest (body : BodyStream) : Except String PromptRequest :=
  match readValue body with
  | .error e => .error e
  | .ok v => unmarshalPromptRequest v PromptRequest.zero

/-- One member of the object being decoded into an `OllamaGenerateResponse`. -/
def storeResponseMember (st : OllamaGenerateResponse × Option String) (kv : String × JSON) :
    OllamaGenerateResponse × Option String :=
  match findField ["response"] kv.1 with
  | none => st
  | some _ =>
    let r := storeString "OllamaGenerateResponse" "response" kv.2 st.1.Response st.2
    ({ Response := r.1 }, r.2)

/-- Decode a JSON value into an `OllamaGenerateResponse`. -/
def unmarshalOllamaResponse (v : JSON) (resp : OllamaGenerateResponse) :
    Except String OllamaGenerateResponse :=
  match v with
  | .obj kvs =>
    match kvs.foldl storeResponseMember (resp, none) with
    | (r, none) => .ok r
    | (_, some e) => .error e
  | .null => .ok resp
  | other => .error (valueTypeError other.valueName "main.OllamaGenerateResponse")

/-- `json.NewDecoder(httpResp.Body).Decode(&ollamaResp)` (line 72). -/
def decodeOllamaResponse (body : BodyStream) : Except String OllamaGenerateResponse :=
  match readValue body with
  | .error e => .error e
  | .ok v => unmarshalOllamaResponse v ⟨""⟩

/-! ## `encoding/json`: encoding (`encode.go`) -/

/-- Text of the `UnsupportedValueError` for a `float64` that JSON cannot represent. -/
def unsupportedFloat (f : Float64) : String :=
  "json: unsupported value: " ++
    (if f.fraction ≠ 0 then "NaN" else if f.sign then "-Inf" else "+Inf")

/-- `json.Marshal` of an `Options` value: both fields are tagged `omitempty`, so a field equal
to zero (for the float, a zero of either sign) is left out; NaN and the infinities cannot be
encoded. -/
def marshalOptions (o : Options) : Except String Doc :=
  if o.Temperature.isInfOrNaN then .error (unsupportedFloat o.Temperature)
  else
    .ok (.obj ((if o.NumPredict = 0 then [] else [("num_predict", Doc.int o.NumPredict)]) ++
      (if o.Temperature.isZero then [] else [("temperature", Doc.float o.Temperature)])))

/-- `json.Marshal` of an `OllamaGenerateRequest`: `model`, `prompt` and `stream` are always
written; `options` is tagged `omitempty` and is left out only for a nil pointer. -/
def marshalRequest (r : OllamaGenerateRequest) : Except String Doc :=
  match r.Options with
  | none =>
    .ok (.obj [("model", .str r.Model), ("prompt", .str r.Prompt), ("stream", .bool r.Stream)])
  | some o =>
    match marshalOptions o with
    | .error e => .error e
    | .ok d =>
      .ok (.obj [("model", .str r.Model), ("prompt", .str r.Prompt), ("stream", .bool r.Stream),
        ("options", d)])

/-- How `appendString` writes one character of a string, with HTML escaping on (the default
of `json.Encoder`): quote and backslash are escaped, control characters and `<`, `>`, `&` are
written as `\u00XX`, U+2028 and U+2029 as `\u202X`. -/
def escapeChar (c : Char) : List Char :=
  let n := c.toNat
  if c = dquote ∨ c = backslash then [backslash, c]
  else if n = 8 then [backslash, 'b']
  else if n = 12 then [backslash, 'f']
  else if n = 10 then [backslash, 'n']
  else if n = 13 then [backslash, 'r']
  else if n = 9 then [backslash, 't']
  else if n < 32 ∨ c = '<' ∨ c = '>' ∨ c = '&' then
    [backslash, 'u', '0', '0', hexDigit (n / 16), hexDigit (n % 16)]
  else if n = 0x2028 ∨ n = 0x2029 then [backslash, 'u', '2', '0', '2', hexDigit (n % 16)]
  else [c]

/-- The JSON string literal for `s` (`appendString`). -/
def encodeString (s : String) : List Char :=
  dquote :: (s.data.flatMap escapeChar ++ [dquote])

/-- `json.Marshal` of an `APIResponse`: the object with the single member `generated`. -/
def marshalAPIResponse (resp : APIResponse) : String :=
  String.mk (lbrace :: (encodeString "generated" ++ ':' :: (encodeString resp.Generated ++ [rbrace])))

/-! ## `net/http`: the response writer and the outbound call -/

/-- The header map of a response, keys in canonical form. -/
abbrev Header := List (String × String)

/-- The method `Header.Del`. -/
def Header.Del (h : Header) (key : String) : Header := h.filter (fun kv => kv.1 != key)

/-- The method `Header.Set`: the value replaces any present for the key. -/
def Header.Set (h : Header) (key value : String) : Header := h.Del key ++ [(key, value)]

/-- The method `Header.Get`: the value for the key, or the empty string. -/
def Header.Get (h : Header) (key : String) : String :=
  ((h.find? (fun kv => kv.1 == key)).map (fun kv => kv.2)).getD ""

/-- The state of an `http.ResponseWriter`: the header map, the status code once the header has
been written, and the body bytes written so far. -/
structure ResponseWriter where
  header : Header
  status : Option Nat
  body : String
deriving DecidableEq, Repr

/-- The writer a handler is given: nothing written yet. -/
def ResponseWriter.new : ResponseWriter := ⟨[], none, ""⟩

/-- The method `WriteHeader`: only the first call takes effect. -/
def ResponseWriter.WriteHeader (w : ResponseWriter) (code : Nat) : ResponseWriter :=
  match w.status with
  | none => { w with status := some code }
  | some _ => w

/-- The method `Write`: writes the header with status 200 first if it has not been written. -/
def ResponseWriter.Write (w : ResponseWriter) (data : String) : ResponseWriter :=
  let w1 := w.WriteHeader 200
  { w1 with body := w1.body ++ data }

/-- The function `http.Error`: plain-text content type, the status code, then the message
followed by a newline. -/
def httpError (w : ResponseWriter) (error : String) (code : Nat) : ResponseWriter :=
  let h := ((w.header.Del "Content-Length").Set "Content-Type" "text/plain; charset=utf-8").Set
    "X-Content-Type-Options" "nosniff"
  (({ w with header := h }).WriteHeader code).Write (error ++ "\n")

/-- An inbound request, as far as the handler reads it. -/
structure Request where
  Body : BodyStream
deriving DecidableEq, Repr

/-- One `httpClient.Post(url, contentType, body)`. -/
structure PostCall where
  url : String
  contentType : String
  body : Doc
deriving Repr

/-- What `httpClient.Post` returns when it returns no error. -/
structure HttpResponse where
  StatusCode : Int
  Body : BodyStream
deriving DecidableEq, Repr

/-- The backend as seen through the HTTP client with its 60 second timeout: for each call,
a transport error (connection refused, timeout, ...) or a response. -/
abbrev Backend := PostCall → Except String HttpResponse

/-! ## `main.go` -/

/-- The `ollamaReq` that `callOllama` builds (lines 44-52). -/
def ollamaRequest (model : String) (req : PromptRequest) : OllamaGenerateRequest :=
  { Model := model
    Prompt := req.Prompt
    Stream := false
    Options := some { NumPredict := req.MaxTokens, Temperature := req.Temperature } }

/-- The URL `callOllama` posts to (line 42). -/
def ollamaURL : String := "http://localhost:11434/api/generate"

/-- `func callOllama(model string, req PromptRequest) (string, error)` (lines 41-77). The
second component lists the POSTs issued. -/
def callOllama (backend : Backend) (model : String) (req : PromptRequest) :
    Except String String × List PostCall :=
  let ollamaReq := ollamaRequest model req
  match marshalRequest ollamaReq with
  | .error err => (.error err, [])
  | .ok body =>
    let call : PostCall := ⟨ollamaURL, "application/json", body⟩
    match backend call with
    | .error err => (.error err, [call])
    | .ok httpResp =>
      if httpResp.StatusCode ≠ 200 then
        let respBytes := (ioReadAll httpResp.Body).1
        (.error ("ollama error: status=" ++ formatInt httpResp.StatusCode ++ " body=" ++ respBytes),
          [call])
      else
        match decodeOllamaResponse httpResp.Body with
        | .error err => (.error err, [call])
        | .ok ollamaResp => (.ok ollamaResp.Response, [call])

/-- `func predictHandler(w http.ResponseWriter, r *http.Request)` (lines 79-101). Returns the
writer after the handler has run and the POSTs issued. -/
def predictHandler (backend : Backend) (w : ResponseWriter) (r : Request) :
    ResponseWriter × List PostCall :=
  match decodePromptRequest r.Body with
  | .error err => (httpError w ("invalid request body: " ++ err) 400, [])
  | .ok req =>
    if req.Prompt = "" then (httpError w "prompt is required" 400, [])
    else
      let modelName := "qwen3:4b"
      match callOllama backend modelName req with
      | (.error err, calls) => (httpError w ("model error: " ++ err) 500, calls)
      | (.ok result, calls) =>
        let resp : APIResponse := { Generated := result }
        let w1 := { w with header := w.header.Set "Content-Type" "application/json" }
        (w1.Write (marshalAPIResponse resp ++ "\n"), calls)

/-- The request whose body is the text `s`, read without error. -/
def Request.ofText (s : String) : Request := ⟨⟨s, none⟩⟩

/-- A backend that answers every call with the given status and body text. -/
def Backend.answering (code : Int) (body : String) : Backend :=
  fun _ => .ok ⟨code, ⟨body, none⟩⟩

/-- The document `json.Marshal` writes for `ollamaRequest model req` (when the temperature is
finite): the `options` object is always present and holds only its non-zero fields. -/
def requestDoc (model : String) (req : PromptRequest) : Doc :=
  .obj [("model", .str model), ("prompt", .str req.Prompt), ("stream", .bool false),
    ("options", .obj
      ((if req.MaxTokens = 0 then [] else [("num_predict", Doc.int req.MaxTokens)]) ++
        (if req.Temperature.isZero then [] else [("temperature", Doc.float req.Temperature)])))]

/-- `json.Valid`: the whole text is one JSON value with nothing but white space around it. -/
def validJSON (s : String) : Bool :=
  match scanValue (2 * s.data.length + 2) 0 s.data with
  | .ok _ rest => (skipSpace rest).isEmpty
  | _ => false

/-- The first JSON value of a text, if the text begins with a complete one. -/
def firstValue (s : String) : Option JSON :=
  match scanValue (2 * s.data.length + 2) 0 s.data with
  | .ok v _ => some v
  | _ => none

/-- Whether a value is an object or `null`, the two kinds of value that can be decoded into a
struct. -/
def JSON.isObjectOrNull : JSON → Bool
  | .obj _ => true
  | .null => true
  | _ => false

/-- Whether the field of `PromptRequest` with JSON name `field` can take the value `v`:
`prompt` takes a string, `max_tokens` a number that is an `int`, `temperature` a number that is
a `float64`, and every field takes `null`. -/
def fitsField (field : String) (v : JSON) : Bool :=
  match v with
  | .null => true
  | .str _ => field == "prompt"
  | .num lit =>
    (field == "max_tokens" && (parseInt lit).isSome) ||
      (field == "temperature" && (parseFloat lit).isSome)
  | _ => false

/-- A type mismatch against `PromptRequest`, in the words of the specification: the value is
neither an object nor `null`, or one of its members names a field of `PromptRequest` and holds
a value that field cannot take (a numeric prompt, say). -/
def mismatchesPromptRequest (v : JSON) : Bool :=
  match v with
  | .obj kvs =>
    kvs.any (fun kv =>
      match findField ["prompt", "max_tokens", "temperature"] kv.1 with
      | some f => !fitsField f kv.2
      | none => false)
  | .null => false
  | _ => true

/-- What the budget argument of the three readers guarantees at a given budget `n`. -/
def BudgetOK (n : Nat) : Prop :=
  (∀ d cs, (∀ v rest, scanValue n d cs = .ok v rest → rest.length < cs.length) ∧
      (2 * cs.length < n → scanValue n d cs ≠ .fuel)) ∧
    (∀ d acc cs, (∀ v rest, scanElems n d acc cs = .ok v rest → rest.length < cs.length) ∧
      (2 * cs.length + 1 < n → scanElems n d acc cs ≠ .fuel)) ∧
    (∀ d acc cs, (∀ v rest, scanMembers n d acc cs = .ok v rest → rest.length < cs.length) ∧
      (2 * cs.length + 1 < n → scanMembers n d acc cs ≠ .fuel))

/-! ## Lemmas on the library model -/

theorem skipSpace_length_le (cs : List Char) : (skipSpace cs).length ≤ cs.length := by
  induction cs with
  | nil => exact Nat.le_refl _
  | cons c cs ih =>
    unfold skipSpace
    split
    · exact Nat.le_succ_of_le ih
    · exact Nat.le_refl _

theorem skipSpace_cons_length {cs : List Char} {c : Char} {rest : List Char}
    (h : skipSpace cs = c :: rest) : rest.length < cs.length := by
  have := skipSpace_length_le cs
  rw [h] at this
  exact this

theorem dropWhile_length_le (p : Char → Bool) (cs : List Char) :
    (cs.dropWhile p).length ≤ cs.length :=
  (List.dropWhile_sublist p).length_le

theorem scanString_length (st : StrState) (pending : Option Nat) (acc cs : List Char)
    (s : String) (rest : List Char) (h : scanString st pending acc cs = .ok s rest) :
    rest.length < cs.length := by
  induction cs generalizing st pending acc with
  | nil => cases st <;> simp [scanString] at h
  | cons c cs ih =>
    cases st with
    | plain =>
      simp only [scanString] at h
      split at h
      · cases h; exact Nat.lt_succ_self _
      · split at h
        · exact Nat.lt_succ_of_lt (ih _ _ _ h)
        · split at h
          · cases h
          · exact Nat.lt_succ_of_lt (ih _ _ _ h)
    | esc =>
      simp only [scanString] at h
      repeat' split at h
      all_goals first
        | cases h
        | exact Nat.lt_succ_of_lt (ih _ _ _ h)
    | hex k v =>
      simp only [scanString] at h
      repeat' split at h
      all_goals first
        | cases h
        | exact Nat.lt_succ_of_lt (ih _ _ _ h)

theorem scanLiteral_length (name : String) (v : JSON) (es cs : List Char) (w : JSON)
    (rest : List Char) (h : scanLiteral name v es cs = .ok w rest) :
    rest.length ≤ cs.length := by
  induction es generalizing cs with
  | nil => simp only [scanLiteral] at h; cases h; exact Nat.le_refl _
  | cons e es ih =>
    cases cs with
    | nil => simp [scanLiteral] at h
    | cons c cs =>
      simp only [scanLiteral] at h
      split at h
      · exact Nat.le_succ_of_le (ih _ h)
      · cases h

theorem scanExponent_length (acc cs : List Char) (s : String) (rest : List Char)
    (h : scanExponent acc cs = .ok s rest) : rest.length ≤ cs.length := by
  unfold scanExponent at h
  simp only at h
  split at h
  · cases h
  · next c t hc =>
    split at h
    · cases h
      have h1 := dropWhile_length_le isDigit
        (match cs with
          | c :: cs1 => if c = '+' ∨ c = '-' then (acc ++ [c], cs1) else (acc, cs)
          | [] => (acc, cs)).2
      refine Nat.le_trans h1 ?_
      split
      · split
        · exact Nat.le_succ _
        · exact Nat.le_refl _
      · exact Nat.le_refl _
    · cases h

theorem scanFraction_length (acc cs : List Char) (s : String) (rest : List Char)
    (h : scanFraction acc cs = .ok s rest) : rest.length ≤ cs.length := by
  unfold scanFraction at h
  split at h
  · cases h; exact Nat.le_refl _
  · next c cs1 =>
    split at h
    · split at h
      · cases h
      · next d t =>
        split at h
        · have hd := dropWhile_length_le isDigit (d :: t)
          split at h
          · next heq => cases h; exact Nat.zero_le _
          · next e cs2 heq =>
            rw [heq] at hd
            split at h
            · have := scanExponent_length _ _ _ _ h
              simp only [List.length_cons] at hd ⊢
              omega
            · cases h
              simp only [List.length_cons] at hd ⊢
              omega
        · cases h
    · split at h
      · have := scanExponent_length _ _ _ _ h
        simp only [List.length_cons]
        omega
      · cases h; exact Nat.le_refl _

theorem scanInteger_length (acc cs : List Char) (s : String) (rest : List Char)
    (h : scanInteger acc cs = .ok s rest) : rest.length < cs.length := by
  unfold scanInteger at h
  split at h
  · cases h
  · next c cs1 =>
    split at h
    · exact Nat.lt_succ_of_le (scanFraction_length _ _ _ _ h)
    · split at h
      · have h1 := scanFraction_length _ _ _ _ h
        have h2 := dropWhile_length_le isDigit cs1
        exact Nat.lt_succ_of_le (Nat.le_trans h1 h2)
      · cases h

theorem scanNumber_length (cs : List Char) (s : String) (rest : List Char)
    (h : scanNumber cs = .ok s rest) : rest.length < cs.length := by
  unfold scanNumber at h
  split at h
  · cases h
  · next c cs1 =>
    split at h
    · exact Nat.lt_succ_of_lt (scanInteger_length _ _ _ _ h)
    · exact scanInteger_length _ _ _ _ h

theorem Scan.map_ok {α β : Type} (f : α → β) (x : Scan α) (b : β) (rest : List Char)
    (h : x.map f = .ok b rest) : ∃ a, x = .ok a rest := by
  cases x with
  | ok a r => simp only [Scan.map] at h; cases h; exact ⟨a, rfl⟩
  | bad c ctx => cases h
  | eof => cases h
  | fuel => cases h

theorem Scan.map_ne_fuel {α β : Type} (f : α → β) (x : Scan α) (h : x ≠ .fuel) :
    x.map f ≠ .fuel := by
  cases x with
  | ok a r => intro h'; cases h'
  | bad c ctx => intro h'; cases h'
  | eof => intro h'; cases h'
  | fuel => exact absurd rfl h

theorem scanString_ne_fuel (st : StrState) (pending : Option Nat) (acc cs : List Char) :
    scanString st pending acc cs ≠ .fuel := by
  induction cs generalizing st pending acc with
  | nil => cases st <;> simp [scanString]
  | cons c cs ih =>
    cases st with
    | plain =>
      simp only [scanString]
      repeat' split
      all_goals first
        | exact ih _ _ _
        | (intro h; cases h)
    | esc =>
      simp only [scanString]
      repeat' split
      all_goals first
        | exact ih _ _ _
        | (intro h; cases h)
    | hex k v =>
      simp only [scanString]
      repeat' split
      all_goals first
        | exact ih _ _ _
        | (intro h; cases h)

theorem scanLiteral_ne_fuel (name : String) (v : JSON) (es cs : List Char) :
    scanLiteral name v es cs ≠ .fuel := by
  induction es generalizing cs with
  | nil => simp [scanLiteral]
  | cons e es ih =>
    cases cs with
    | nil => simp [scanLiteral]
    | cons c cs =>
      simp only [scanLiteral]
      split
      · exact ih _
      · intro h; cases h

theorem scanExponent_ne_fuel (acc cs : List Char) : scanExponent acc cs ≠ .fuel := by
  unfold scanExponent
  simp only
  repeat' split
  all_goals (intro h; cases h)

theorem scanFraction_ne_fuel (acc cs : List Char) : scanFraction acc cs ≠ .fuel := by
  unfold scanFraction
  repeat' split
  all_goals first
    | exact scanExponent_ne_fuel _ _
    | (intro h; cases h)

theorem scanInteger_ne_fuel (acc cs : List Char) : scanInteger acc cs ≠ .fuel := by
  unfold scanInteger
  repeat' split
  all_goals first
    | exact scanFraction_ne_fuel _ _
    | (intro h; cases h)

theorem scanNumber_ne_fuel (cs : List Char) : scanNumber cs ≠ .fuel := by
  unfold scanNumber
  repeat' split
  all_goals first
    | exact scanInteger_ne_fuel _ _
    | (intro h; cases h)




theorem scanValue_step_length (n d : Nat) (cs : List Char) (ih : BudgetOK n) (v : JSON)
    (rest : List Char) (h : scanValue (n + 1) d cs = .ok v rest) : rest.length < cs.length := by
  simp only [scanValue] at h
  split at h
  · cases h
  · next c r hs =>
    have hr := skipSpace_cons_length hs
    split at h
    · split at h
      · cases h
      · split at h
        · cases h
        · next k r1 hk =>
          have hr1 := skipSpace_cons_length hk
          split at h
          · cases h; omega
          · split at h
            · have := (ih.2.2 _ _ _).1 _ _ h
              omega
            · cases h
    · split at h
      · split at h
        · cases h
        · split at h
          · cases h
          · next k r1 hk =>
            have hr1 := skipSpace_cons_length hk
            split at h
            · cases h; omega
            · have := (ih.2.1 _ _ _).1 _ _ h
              simp only [List.length_cons] at this
              omega
      · split at h
        · obtain ⟨a, ha⟩ := Scan.map_ok _ _ _ _ h
          have := scanString_length _ _ _ _ _ _ ha
          omega
        · split at h
          · obtain ⟨a, ha⟩ := Scan.map_ok _ _ _ _ h
            have := scanNumber_length _ _ _ ha
            simp only [List.length_cons] at this
            omega
          · split at h
            · have := scanLiteral_length _ _ _ _ _ _ h
              omega
            · split at h
              · have := scanLiteral_length _ _ _ _ _ _ h
                omega
              · split at h
                · have := scanLiteral_length _ _ _ _ _ _ h
                  omega
                · cases h

theorem scanValue_step_fuel (n d : Nat) (cs : List Char) (ih : BudgetOK n)
    (hb : 2 * cs.length < n + 1) : scanValue (n + 1) d cs ≠ .fuel := by
  simp only [scanValue]
  split
  · intro h; cases h
  · next c r hs =>
    have hr := skipSpace_cons_length hs
    split
    · split
      · intro h; cases h
      · split
        · intro h; cases h
        · next k r1 hk =>
          have hr1 := skipSpace_cons_length hk
          split
          · intro h; cases h
          · split
            · exact (ih.2.2 _ _ _).2 (by omega)
            · intro h; cases h
    · split
      · split
        · intro h; cases h
        · split
          · intro h; cases h
          · next k r1 hk =>
            have hr1 := skipSpace_cons_length hk
            split
            · intro h; cases h
            · exact (ih.2.1 _ _ _).2 (by simp only [List.length_cons]; omega)
      · split
        · exact Scan.map_ne_fuel _ _ (scanString_ne_fuel _ _ _ _)
        · split
          · exact Scan.map_ne_fuel _ _ (scanNumber_ne_fuel _)
          · split
            · exact scanLiteral_ne_fuel _ _ _ _
            · split
              · exact scanLiteral_ne_fuel _ _ _ _
              · split
                · exact scanLiteral_ne_fuel _ _ _ _
                · intro h; cases h

theorem scanElems_step_length (n d : Nat) (acc : List JSON) (cs : List Char) (ih : BudgetOK n)
    (v : JSON) (rest : List Char) (h : scanElems (n + 1) d acc cs = .ok v rest) :
    rest.length < cs.length := by
  simp only [scanElems] at h
  split at h
  · next w r hv =>
    have hr := (ih.1 _ _).1 _ _ hv
    split at h
    · cases h
    · next c r1 hs =>
      have hr1 := skipSpace_cons_length hs
      split at h
      · have := (ih.2.1 _ _ _).1 _ _ h
        omega
      · split at h
        · cases h; omega
        · cases h
  · cases h
  · cases h
  · cases h

theorem scanElems_step_fuel (n d : Nat) (acc : List JSON) (cs : List Char) (ih : BudgetOK n)
    (hb : 2 * cs.length + 1 < n + 1) : scanElems (n + 1) d acc cs ≠ .fuel := by
  simp only [scanElems]
  split
  · next w r hv =>
    have hr := (ih.1 _ _).1 _ _ hv
    split
    · intro h; cases h
    · next c r1 hs =>
      have hr1 := skipSpace_cons_length hs
      split
      · exact (ih.2.1 _ _ _).2 (by omega)
      · split <;> (intro h; cases h)
  · intro h; cases h
  · intro h; cases h
  · next hv => exact absurd hv ((ih.1 _ _).2 (by omega))

theorem scanMembers_step_length (n d : Nat) (acc : List (String × JSON)) (cs : List Char)
    (ih : BudgetOK n) (v : JSON) (rest : List Char)
    (h : scanMembers (n + 1) d acc cs = .ok v rest) : rest.length < cs.length := by
  simp only [scanMembers] at h
  split at h
  · next key r hkey =>
    have hr := scanString_length _ _ _ _ _ _ hkey
    split at h
    · cases h
    · next c r1 hs =>
      have hr1 := skipSpace_cons_length hs
      split at h
      · split at h
        · next w r2 hv =>
          have hr2 := (ih.1 _ _).1 _ _ hv
          split at h
          · cases h
          · next e r3 hs3 =>
            have hr3 := skipSpace_cons_length hs3
            split at h
            · split at h
              · cases h
              · next q r4 hs4 =>
                have hr4 := skipSpace_cons_length hs4
                split at h
                · have := (ih.2.2 _ _ _).1 _ _ h
                  omega
                · cases h
            · split at h
              · cases h; omega
              · cases h
        · cases h
        · cases h
        · cases h
      · cases h
  · cases h
  · cases h
  · cases h

theorem scanMembers_step_fuel (n d : Nat) (acc : List (String × JSON)) (cs : List Char)
    (ih : BudgetOK n) (hb : 2 * cs.length + 1 < n + 1) :
    scanMembers (n + 1) d acc cs ≠ .fuel := by
  simp only [scanMembers]
  split
  · next key r hkey =>
    have hr := scanString_length _ _ _ _ _ _ hkey
    split
    · intro h; cases h
    · next c r1 hs =>
      have hr1 := skipSpace_cons_length hs
      split
      · split
        · next w r2 hv =>
          have hr2 := (ih.1 _ _).1 _ _ hv
          split
          · intro h; cases h
          · next e r3 hs3 =>
            have hr3 := skipSpace_cons_length hs3
            split
            · split
              · intro h; cases h
              · next q r4 hs4 =>
                have hr4 := skipSpace_cons_length hs4
                split
                · exact (ih.2.2 _ _ _).2 (by omega)
                · intro h; cases h
            · split <;> (intro h; cases h)
        · intro h; cases h
        · intro h; cases h
        · next hv => exact absurd hv ((ih.1 _ _).2 (by omega))
      · intro h; cases h
  · intro h; cases h
  · intro h; cases h
  · next hkey => exact absurd hkey (scanString_ne_fuel _ _ _ _)

theorem budgetOK (n : Nat) : BudgetOK n := by
  induction n with
  | zero =>
    refine ⟨fun d cs => ⟨?_, ?_⟩, fun d acc cs => ⟨?_, ?_⟩, fun d acc cs => ⟨?_, ?_⟩⟩
    · intro v rest h; simp [scanValue] at h
    · intro h; omega
    · intro v rest h; simp [scanElems] at h
    · intro h; omega
    · intro v rest h; simp [scanMembers] at h
    · intro h; omega
  | succ n ih =>
    exact ⟨fun d cs => ⟨scanValue_step_length n d cs ih, scanValue_step_fuel n d cs ih⟩,
      fun d acc cs => ⟨scanElems_step_length n d acc cs ih, scanElems_step_fuel n d acc cs ih⟩,
      fun d acc cs =>
        ⟨scanMembers_step_length n d acc cs ih, scanMembers_step_fuel n d acc cs ih⟩⟩

/-- The budget `readValue` passes to `scanValue` is never used up. -/
theorem scanValue_budget (cs : List Char) : scanValue (2 * cs.length + 2) 0 cs ≠ .fuel :=
  ((budgetOK _).1 0 cs).2 (by omega)

theorem hexVal_hexDigit (x : Nat) (h : x < 16) : hexVal (hexDigit x) = some x := by
  interval_cases x <;> rfl

/-- Reading `\uWXYZ` (after the `u`) stores the code point with those four hex digits. -/
theorem scanString_hex (w x y z : Nat) (hw : w < 16) (hx : x < 16) (hy : y < 16) (hz : z < 16)
    (pending : Option Nat) (acc rest : List Char) :
    scanString (.hex 0 0) pending acc
        (hexDigit w :: hexDigit x :: hexDigit y :: hexDigit z :: rest) =
      scanString .plain (storeEscape pending acc (((w * 16 + x) * 16 + y) * 16 + z)).1
        (storeEscape pending acc (((w * 16 + x) * 16 + y) * 16 + z)).2 rest := by
  simp [scanString, hexVal_hexDigit, hw, hx, hy, hz]

theorem storeEscape_plain (acc : List Char) (n : Nat) (h : n < 0xD800) :
    storeEscape none acc n = (none, Char.ofNat n :: acc) := by
  unfold storeEscape
  have h1 : ¬ (0xDC00 ≤ n ∧ n < 0xE000) := by omega
  have h2 : ¬ (0xD800 ≤ n ∧ n < 0xDC00) := by omega
  simp only [h1, h2, if_false, flushPending]

/-- Reading back what `escapeChar` wrote for `c` yields `c`. -/
theorem scanString_escapeChar (c : Char) (acc rest : List Char) :
    scanString .plain none acc (escapeChar c ++ rest) =
      scanString .plain none (c :: acc) rest := by
  have hc : Char.ofNat c.toNat = c := Char.ofNat_toNat c
  unfold escapeChar
  simp only
  split
  · next h =>
    rcases h with rfl | rfl <;> rfl
  · next hq =>
    have hq1 : c ≠ dquote := fun h => hq (Or.inl h)
    have hq2 : c ≠ backslash := fun h => hq (Or.inr h)
    split
    · next h => rw [h] at hc; rw [← hc]; rfl
    · split
      · next h => rw [h] at hc; rw [← hc]; rfl
      · split
        · next h => rw [h] at hc; rw [← hc]; rfl
        · split
          · next h => rw [h] at hc; rw [← hc]; rfl
          · split
            · next h => rw [h] at hc; rw [← hc]; rfl
            · split
              · next h =>
                have hn : c.toNat < 128 := by
                  rcases h with h | rfl | rfl | rfl
                  · omega
                  · decide
                  · decide
                  · decide
                have h0 : ('0' : Char) = hexDigit 0 := rfl
                have hbs : (backslash = dquote) = False := by decide
                have hu : (('u' : Char) = dquote) = False := by decide
                simp only [List.cons_append, List.nil_append]
                rw [scanString]
                simp only [hbs, if_false, if_true]
                rw [scanString]
                simp only [if_true]
                rw [h0, scanString_hex 0 0 (c.toNat / 16) (c.toNat % 16) (by omega) (by omega)
                  (by omega) (by omega)]
                have hval : ((0 * 16 + 0) * 16 + c.toNat / 16) * 16 + c.toNat % 16 = c.toNat := by
                  omega
                rw [hval, storeEscape_plain _ _ (by omega), hc]
              · next h32 =>
                split
                · next h =>
                  have h2 : ('2' : Char) = hexDigit 2 := rfl
                  have h0 : ('0' : Char) = hexDigit 0 := rfl
                  have hbs : (backslash = dquote) = False := by decide
                  simp only [List.cons_append, List.nil_append]
                  rw [scanString]
                  simp only [hbs, if_false, if_true]
                  rw [scanString]
                  simp only [if_true]
                  rw [h2, h0, scanString_hex 2 0 2 (c.toNat % 16) (by omega) (by omega)
                    (by omega) (by omega)]
                  have hval : ((2 * 16 + 0) * 16 + 2) * 16 + c.toNat % 16 = c.toNat := by
                    omega
                  rw [hval, storeEscape_plain _ _ (by omega), hc]
                · simp only [List.cons_append, List.nil_append]
                  rw [scanString]
                  have hge : ¬ c.toNat < 32 := fun h => h32 (Or.inl h)
                  simp only [hq1, hq2, hge, if_false, flushPending]

/-- Reading back the string literal `encodeString` wrote yields the string. -/
theorem scanString_encoded (s acc tail : List Char) :
    scanString .plain none acc (s.flatMap escapeChar ++ dquote :: tail) =
      .ok (String.mk (acc.reverse ++ s)) tail := by
  induction s generalizing acc with
  | nil => simp [scanString, flushPending]
  | cons c s ih =>
    rw [List.flatMap_cons, List.append_assoc, scanString_escapeChar, ih]
    simp

/-- What `json.Marshal` writes for an `APIResponse` reads back as the object whose single
member `generated` is the text. -/
theorem scanValue_marshalAPIResponse (n d : Nat) (hd : d < maxNestingDepth) (t : String)
    (tail : List Char) :
    scanValue (n + 3) d ((marshalAPIResponse ⟨t⟩).data ++ tail) =
      .ok (.obj [("generated", .str t)]) tail := by
  have hdepth : ¬ maxNestingDepth ≤ d := by omega
  have hs := scanString_encoded t.data [] (Char.ofNat 125 :: tail)
  simp only [dquote, List.reverse_nil, List.nil_append] at hs
  simp [marshalAPIResponse, encodeString, scanValue, skipSpace, isSpace, lbrace, rbrace, dquote,
    scanMembers, scanString, flushPending, hdepth, backslash, Scan.map, hs]

/-- The body written on success is a JSON text for the object `{"generated": t}`. -/
theorem readValue_marshalAPIResponse (t : String) :
    readValue ⟨marshalAPIResponse ⟨t⟩ ++ "\n", none⟩ = .ok (.obj [("generated", .str t)]) := by
  have hlen : ∃ n, 2 * (marshalAPIResponse ⟨t⟩ ++ "\n").data.length + 2 = n + 3 :=
    ⟨2 * (marshalAPIResponse ⟨t⟩ ++ "\n").data.length - 1, by
      simp [marshalAPIResponse]; omega⟩
  obtain ⟨n, hn⟩ := hlen
  have hscan := scanValue_marshalAPIResponse n 0 (by decide) t ['\n']
  unfold readValue
  simp only [hn]
  rw [show (marshalAPIResponse ⟨t⟩ ++ "\n").data = (marshalAPIResponse ⟨t⟩).data ++ ['\n'] from
    by simp [String.data_append], hscan]
  rfl

theorem packFloat_finite (neg : Bool) (q : Nat) (k : Int) (f : Float64)
    (h : packFloat neg q k = some f) : f.exponent ≠ 2047 := by
  unfold packFloat at h
  split at h
  · cases h; simp
  · split at h
    · cases h
    · cases h
      simp only
      omega

theorem roundFloat_finite (neg : Bool) (a b : Nat) (f : Float64)
    (h : roundFloat neg a b = some f) : f.exponent ≠ 2047 := by
  unfold roundFloat at h
  simp only at h
  split at h <;> exact packFloat_finite _ _ _ _ h

theorem decimalToFloat_finite (neg : Bool) (m : Nat) (e : Int) (f : Float64)
    (h : decimalToFloat neg m e = some f) : f.exponent ≠ 2047 := by
  unfold decimalToFloat at h
  split at h
  · cases h; simp
  · split at h <;> exact roundFloat_finite _ _ _ _ h

/-- `strconv.ParseFloat` never returns an infinity or a NaN without an error. -/
theorem parseFloat_finite (lit : String) (f : Float64) (h : parseFloat lit = some f) :
    f.exponent ≠ 2047 :=
  decimalToFloat_finite _ _ _ _ h

theorem storeFloat_finite (s fld : String) (v : JSON) (old : Float64) (saved : Option String)
    (h : old.exponent ≠ 2047) : (storeFloat s fld v old saved).1.exponent ≠ 2047 := by
  unfold storeFloat
  split
  · split
    · next f hf => exact parseFloat_finite _ _ hf
    · exact h
  · exact h
  · exact h

theorem storePromptMember_finite (st : PromptRequest × Option String) (kv : String × JSON)
    (h : st.1.Temperature.exponent ≠ 2047) :
    (storePromptMember st kv).1.Temperature.exponent ≠ 2047 := by
  unfold storePromptMember
  split
  · exact h
  · split
    · exact h
    · split
      · exact h
      · exact storeFloat_finite _ _ _ _ _ h

theorem foldl_storePromptMember_finite (kvs : List (String × JSON))
    (st : PromptRequest × Option String) (h : st.1.Temperature.exponent ≠ 2047) :
    (kvs.foldl storePromptMember st).1.Temperature.exponent ≠ 2047 := by
  induction kvs generalizing st with
  | nil => exact h
  | cons kv kvs ih => exact ih _ (storePromptMember_finite st kv h)

theorem unmarshalPromptRequest_finite (v : JSON) (r0 req : PromptRequest)
    (h0 : r0.Temperature.exponent ≠ 2047) (h : unmarshalPromptRequest v r0 = .ok req) :
    req.Temperature.exponent ≠ 2047 := by
  cases v with
  | obj kvs =>
    have hfin := foldl_storePromptMember_finite kvs (r0, none) h0
    simp only [unmarshalPromptRequest] at h
    split at h
    · next r hr => cases h; rw [hr] at hfin; exact hfin
    · cases h
  | null => cases h; exact h0
  | bool b => cases h
  | num lit => cases h
  | str s => cases h
  | arr xs => cases h

/-- A decoded request never carries an infinite or NaN temperature. -/
theorem decodePromptRequest_finite (body : BodyStream) (req : PromptRequest)
    (h : decodePromptRequest body = .ok req) : req.Temperature.isInfOrNaN = false := by
  have key : req.Temperature.exponent ≠ 2047 := by
    unfold decodePromptRequest at h
    split at h
    · cases h
    · exact unmarshalPromptRequest_finite _ _ _ (by decide) h
  simp [Float64.isInfOrNaN, key]

/-- Serialising the request built for a finite temperature succeeds and gives `requestDoc`. -/
theorem marshalRequest_ollamaRequest (model : String) (req : PromptRequest)
    (h : req.Temperature.isInfOrNaN = false) :
    marshalRequest (ollamaRequest model req) = .ok (requestDoc model req) := by
  simp [marshalRequest, ollamaRequest, marshalOptions, requestDoc, h]

/-! ## Lemmas on `callOllama` and `predictHandler` -/

/-- The POSTs `callOllama` issues for a request with a finite temperature: exactly one. -/
theorem callOllama_calls (backend : Backend) (model : String) (req : PromptRequest)
    (h : req.Temperature.isInfOrNaN = false) :
    (callOllama backend model req).2 =
      [⟨ollamaURL, "application/json", requestDoc model req⟩] := by
  unfold callOllama
  simp only [marshalRequest_ollamaRequest model req h]
  split
  · rfl
  · split
    · rfl
    · split <;> rfl

/-- The result of `callOllama` in terms of what the backend returns for its one call. -/
theorem callOllama_result (backend : Backend) (model : String) (req : PromptRequest)
    (h : req.Temperature.isInfOrNaN = false) :
    (callOllama backend model req).1 =
      match backend ⟨ollamaURL, "application/json", requestDoc model req⟩ with
      | .error err => .error err
      | .ok httpResp =>
        if httpResp.StatusCode ≠ 200 then
          .error ("ollama error: status=" ++ formatInt httpResp.StatusCode ++ " body=" ++
            httpResp.Body.data)
        else
          match decodeOllamaResponse httpResp.Body with
          | .error err => .error err
          | .ok ollamaResp => .ok ollamaResp.Response := by
  unfold callOllama
  simp only [marshalRequest_ollamaRequest model req h, ioReadAll]
  split
  · rfl
  · split
    · rfl
    · split <;> rfl

/-- The handler on a request that decodes to `req` with a non-empty prompt. -/
theorem predictHandler_forwarded (backend : Backend) (w : ResponseWriter) (r : Request)
    (req : PromptRequest) (hdec : decodePromptRequest r.Body = .ok req) (hp : req.Prompt ≠ "") :
    predictHandler backend w r =
      match (callOllama backend "qwen3:4b" req).1 with
      | .error err =>
        (httpError w ("model error: " ++ err) 500, (callOllama backend "qwen3:4b" req).2)
      | .ok result =>
        (({ w with header := w.header.Set "Content-Type" "application/json" }).Write
          (marshalAPIResponse ⟨result⟩ ++ "\n"), (callOllama backend "qwen3:4b" req).2) := by
  unfold predictHandler
  simp only [hdec, hp, if_false]
  rcases hres : callOllama backend "qwen3:4b" req with ⟨res, calls⟩
  cases res <;> rfl

/-- Status code and body that `http.Error` leaves on a fresh writer. -/
theorem httpError_new (msg : String) (code : Nat) :
    (httpError ResponseWriter.new msg code).status = some code ∧
    (httpError ResponseWriter.new msg code).body = msg ++ "\n" ∧
    (httpError ResponseWriter.new msg code).header.Get "Content-Type" =
      "text/plain; charset=utf-8" := by
  refine ⟨rfl, ?_, rfl⟩
  simp [httpError, ResponseWriter.Write, ResponseWriter.WriteHeader, ResponseWriter.new]



/-- The POSTs the handler issues for a request that decodes with a non-empty prompt. -/
theorem predictHandler_calls (backend : Backend) (w : ResponseWriter) (r : Request)
    (req : PromptRequest) (hdec : decodePromptRequest r.Body = .ok req) (hp : req.Prompt ≠ "") :
    (predictHandler backend w r).2 =
      [⟨ollamaURL, "application/json", requestDoc "qwen3:4b" req⟩] := by
  have hcalls := callOllama_calls backend "qwen3:4b" req (decodePromptRequest_finite _ _ hdec)
  rw [predictHandler_forwarded backend w r req hdec hp]
  split <;> exact hcalls

theorem findField_mem (names : List String) (key f : String)
    (h : findField names key = some f) : f ∈ names := by
  unfold findField at h
  split at h
  · next n hn => cases h; exact List.mem_of_find?_eq_some hn
  · exact List.mem_of_find?_eq_some h

/-- A member whose key selects neither `max_tokens` nor `temperature` leaves both fields as
they are. -/
theorem storePromptMember_keeps (st : PromptRequest × Option String) (kv : String × JSON)
    (h1 : findField ["prompt", "max_tokens", "temperature"] kv.1 ≠ some "max_tokens")
    (h2 : findField ["prompt", "max_tokens", "temperature"] kv.1 ≠ some "temperature") :
    (storePromptMember st kv).1.MaxTokens = st.1.MaxTokens ∧
      (storePromptMember st kv).1.Temperature = st.1.Temperature := by
  unfold storePromptMember
  split
  · exact ⟨rfl, rfl⟩
  · next f hf =>
    have hmem := findField_mem _ _ _ hf
    simp only [List.mem_cons, List.mem_singleton, List.not_mem_nil, or_false] at hmem
    rcases hmem with rfl | rfl | rfl
    · simp
    · exact absurd hf h1
    · exact absurd hf h2

theorem foldl_storePromptMember_keeps (kvs : List (String × JSON))
    (st : PromptRequest × Option String)
    (h : ∀ kv ∈ kvs,
      findField ["prompt", "max_tokens", "temperature"] kv.1 ≠ some "max_tokens" ∧
      findField ["prompt", "max_tokens", "temperature"] kv.1 ≠ some "temperature") :
    (kvs.foldl storePromptMember st).1.MaxTokens = st.1.MaxTokens ∧
      (kvs.foldl storePromptMember st).1.Temperature = st.1.Temperature := by
  induction kvs generalizing st with
  | nil => exact ⟨rfl, rfl⟩
  | cons kv kvs ih =>
    have hkv := h kv (List.mem_cons_self _ _)
    have hstep := storePromptMember_keeps st kv hkv.1 hkv.2
    have hrest := ih (storePromptMember st kv) (fun x hx => h x (List.mem_cons_of_mem _ hx))
    simp only [List.foldl_cons]
    exact ⟨hrest.1.trans hstep.1, hrest.2.trans hstep.2⟩

/-- A body whose object names neither `max_tokens` nor `temperature` decodes with both at
their zero values. -/
theorem decodePromptRequest_omitted (body : BodyStream) (req : PromptRequest)
    (kvs : List (String × JSON)) (hdec : decodePromptRequest body = .ok req)
    (hval : readValue body = .ok (.obj kvs))
    (h : ∀ kv ∈ kvs,
      findField ["prompt", "max_tokens", "temperature"] kv.1 ≠ some "max_tokens" ∧
      findField ["prompt", "max_tokens", "temperature"] kv.1 ≠ some "temperature") :
    req.MaxTokens = 0 ∧ req.Temperature = Float64.zero := by
  have hkeep := foldl_storePromptMember_keeps kvs (PromptRequest.zero, none) h
  unfold decodePromptRequest at hdec
  simp only [hval, unmarshalPromptRequest] at hdec
  split at hdec
  · next r hr => cases hdec; rw [hr] at hkeep; exact hkeep
  · cases hdec

theorem data_formatted_error (c : Int) (b : String) :
    ("model error: " ++ ("ollama error: status=" ++ formatInt c ++ " body=" ++ b)).data =
      "model error: ollama error: ".data ++ ("status=" ++ formatInt c).data ++ " body=".data ++
        b.data := by
  simp only [String.data_append, List.append_assoc, List.cons_append, List.nil_append]

/-! ## Type mismatches and invalid bodies -/

theorem saveError_isSome (saved : Option String) (err : String) :
    (saveError saved err).isSome = true := by
  cases saved <;> rfl

theorem storeString_keeps_error (s fld : String) (v : JSON) (old : String)
    (saved : Option String) (h : saved.isSome = true) :
    (storeString s fld v old saved).2.isSome = true := by
  cases v <;> simp [storeString, h, saveError_isSome]

theorem storeInt_keeps_error (s fld : String) (v : JSON) (old : Int)
    (saved : Option String) (h : saved.isSome = true) :
    (storeInt s fld v old saved).2.isSome = true := by
  cases v with
  | num lit =>
    simp only [storeInt]
    split
    · exact h
    · exact saveError_isSome _ _
  | null => exact h
  | bool b => exact saveError_isSome _ _
  | str t => exact saveError_isSome _ _
  | arr xs => exact saveError_isSome _ _
  | obj kvs => exact saveError_isSome _ _

theorem storeFloat_keeps_error (s fld : String) (v : JSON) (old : Float64)
    (saved : Option String) (h : saved.isSome = true) :
    (storeFloat s fld v old saved).2.isSome = true := by
  cases v with
  | num lit =>
    simp only [storeFloat]
    split
    · exact h
    · exact saveError_isSome _ _
  | null => exact h
  | bool b => exact saveError_isSome _ _
  | str t => exact saveError_isSome _ _
  | arr xs => exact saveError_isSome _ _
  | obj kvs => exact saveError_isSome _ _

/-- Once an error has been saved, it stays saved. -/
theorem storePromptMember_keeps_error (st : PromptRequest × Option String)
    (kv : String × JSON) (h : st.2.isSome = true) :
    (storePromptMember st kv).2.isSome = true := by
  unfold storePromptMember
  split
  · exact h
  · split
    · exact storeString_keeps_error _ _ _ _ _ h
    · split
      · exact storeInt_keeps_error _ _ _ _ _ h
      · exact storeFloat_keeps_error _ _ _ _ _ h

theorem foldl_storePromptMember_keeps_error (kvs : List (String × JSON))
    (st : PromptRequest × Option String) (h : st.2.isSome = true) :
    (kvs.foldl storePromptMember st).2.isSome = true := by
  induction kvs generalizing st with
  | nil => exact h
  | cons kv kvs ih => exact ih _ (storePromptMember_keeps_error st kv h)

/-- A member that names a field and holds a value the field cannot take saves an error. -/
theorem storePromptMember_mismatch (st : PromptRequest × Option String) (kv : String × JSON)
    (f : String) (hf : findField ["prompt", "max_tokens", "temperature"] kv.1 = some f)
    (hfit : fitsField f kv.2 = false) :
    (storePromptMember st kv).2.isSome = true := by
  have hmem := findField_mem _ _ _ hf
  simp only [List.mem_cons, List.mem_singleton, List.not_mem_nil, or_false] at hmem
  unfold storePromptMember
  rw [hf]
  rcases hmem with rfl | rfl | rfl
  · simp only [if_true]
    cases hv : kv.2 with
    | str t => rw [hv] at hfit; simp [fitsField] at hfit
    | null => rw [hv] at hfit; simp [fitsField] at hfit
    | num lit => exact saveError_isSome _ _
    | bool b => exact saveError_isSome _ _
    | arr xs => exact saveError_isSome _ _
    | obj kvs => exact saveError_isSome _ _
  · have h1 : ¬ ("max_tokens" = "prompt") := by decide
    simp only [h1, if_false, if_true]
    cases hv : kv.2 with
    | num lit =>
      rw [hv] at hfit
      simp only [storeInt]
      cases hp : parseInt lit with
      | none => exact saveError_isSome _ _
      | some i => simp [fitsField, hp] at hfit
    | null => rw [hv] at hfit; simp [fitsField] at hfit
    | str t => exact saveError_isSome _ _
    | bool b => exact saveError_isSome _ _
    | arr xs => exact saveError_isSome _ _
    | obj kvs => exact saveError_isSome _ _
  · have h1 : ¬ ("temperature" = "prompt") := by decide
    have h2 : ¬ ("temperature" = "max_tokens") := by decide
    simp only [h1, h2, if_false]
    cases hv : kv.2 with
    | num lit =>
      rw [hv] at hfit
      simp only [storeFloat]
      cases hp : parseFloat lit with
      | none => exact saveError_isSome _ _
      | some x => simp [fitsField, hp] at hfit
    | null => rw [hv] at hfit; simp [fitsField] at hfit
    | str t => exact saveError_isSome _ _
    | bool b => exact saveError_isSome _ _
    | arr xs => exact saveError_isSome _ _
    | obj kvs => exact saveError_isSome _ _

theorem foldl_storePromptMember_mismatch (kvs : List (String × JSON))
    (st : PromptRequest × Option String)
    (h : kvs.any (fun kv =>
      match findField ["prompt", "max_tokens", "temperature"] kv.1 with
      | some f => !fitsField f kv.2
      | none => false) = true) :
    (kvs.foldl storePromptMember st).2.isSome = true := by
  induction kvs generalizing st with
  | nil => simp at h
  | cons kv kvs ih =>
    simp only [List.any_cons, Bool.or_eq_true] at h
    simp only [List.foldl_cons]
    rcases h with h | h
    · apply foldl_storePromptMember_keeps_error
      cases hf : findField ["prompt", "max_tokens", "temperature"] kv.1 with
      | none => rw [hf] at h; simp at h
      | some f =>
        rw [hf] at h
        simp only [Bool.not_eq_true'] at h
        exact storePromptMember_mismatch st kv f hf h
    · exact ih _ h

/-- A value with a type mismatch against `PromptRequest` fails to be stored. -/
theorem unmarshalPromptRequest_mismatch (v : JSON) (r0 : PromptRequest)
    (h : mismatchesPromptRequest v = true) :
    ∃ e, unmarshalPromptRequest v r0 = .error e := by
  cases v with
  | obj kvs =>
    have hsome := foldl_storePromptMember_mismatch kvs (r0, none) h
    simp only [unmarshalPromptRequest]
    rcases hfold : kvs.foldl storePromptMember (r0, none) with ⟨r, saved⟩
    rw [hfold] at hsome
    cases saved with
    | none => simp at hsome
    | some e => exact ⟨e, rfl⟩
  | null => simp [mismatchesPromptRequest] at h
  | bool b => exact ⟨_, rfl⟩
  | num lit => exact ⟨_, rfl⟩
  | str s => exact ⟨_, rfl⟩
  | arr xs => exact ⟨_, rfl⟩

/-- A value that is neither an object nor `null` has a type mismatch. -/
theorem mismatches_of_not_objectOrNull (v : JSON) (h : v.isObjectOrNull = false) :
    mismatchesPromptRequest v = true := by
  cases v <;> simp [JSON.isObjectOrNull] at h <;> rfl

/-- A body that is not valid JSON fails to decode, unless it begins with a complete object or
`null`: the decoder stops at the end of the first value and does not examine what follows. -/
theorem invalid_json_fails_to_decode (body : BodyStream)
    (hinv : validJSON body.data = false)
    (hfirst : ∀ v, firstValue body.data = some v → v.isObjectOrNull = false) :
    ∃ e, decodePromptRequest body = .error e := by
  unfold validJSON at hinv
  unfold firstValue at hfirst
  unfold decodePromptRequest readValue
  cases hs : scanValue (2 * body.data.data.length + 2) 0 body.data.data with
  | ok v rest =>
    rw [hs] at hinv hfirst
    have hv : v.isObjectOrNull = false := hfirst v rfl
    have hmis := unmarshalPromptRequest_mismatch v PromptRequest.zero
      (mismatches_of_not_objectOrNull v hv)
    by_cases hc : v.isComposite = true
    · simp only [frameValue, hc, if_true]
      exact hmis
    · cases rest with
      | nil => simp [skipSpace] at hinv
      | cons c cs =>
        simp only [frameValue, hc]
        exact hmis
  | bad c ctx => exact ⟨_, rfl⟩
  | eof =>
    simp only [frameValue]
    cases body.readErr with
    | some e => exact ⟨_, rfl⟩
    | none =>
      by_cases hsp : skipSpace body.data.data = [] <;> simp [hsp]
  | fuel => exact ⟨_, rfl⟩




/-- A member that fits the field it names, or names no field, saves no error. -/
theorem storePromptMember_fits (st : PromptRequest × Option String) (kv : String × JSON)
    (h : st.2 = none)
    (hfit : (match findField ["prompt", "max_tokens", "temperature"] kv.1 with
      | some f => !fitsField f kv.2
      | none => false) = false) :
    (storePromptMember st kv).2 = none := by
  unfold storePromptMember
  cases hf : findField ["prompt", "max_tokens", "temperature"] kv.1 with
  | none => exact h
  | some f =>
    rw [hf] at hfit
    simp only [Bool.not_eq_false'] at hfit
    have hmem := findField_mem _ _ _ hf
    simp only [List.mem_cons, List.mem_singleton, List.not_mem_nil, or_false] at hmem
    rcases hmem with rfl | rfl | rfl
    · simp only [if_true]
      cases hv : kv.2 <;> rw [hv] at hfit <;> simp [fitsField] at hfit <;>
        simp [storeString, h]
    · have h1 : ¬ ("max_tokens" = "prompt") := by decide
      simp only [h1, if_false, if_true]
      cases hv : kv.2 <;> rw [hv] at hfit <;> simp [fitsField] at hfit
      · simp [storeInt, h]
      · next lit =>
        obtain ⟨i, hi⟩ := Option.isSome_iff_exists.1 hfit
        simp [storeInt, hi, h]
    · have h1 : ¬ ("temperature" = "prompt") := by decide
      have h2 : ¬ ("temperature" = "max_tokens") := by decide
      simp only [h1, h2, if_false]
      cases hv : kv.2 <;> rw [hv] at hfit <;> simp [fitsField] at hfit
      · simp [storeFloat, h]
      · next lit =>
        obtain ⟨x, hx⟩ := Option.isSome_iff_exists.1 hfit
        simp [storeFloat, hx, h]

theorem foldl_storePromptMember_fits (kvs : List (String × JSON))
    (st : PromptRequest × Option String) (h : st.2 = none)
    (hfit : kvs.any (fun kv =>
      match findField ["prompt", "max_tokens", "temperature"] kv.1 with
      | some f => !fitsField f kv.2
      | none => false) = false) :
    (kvs.foldl storePromptMember st).2 = none := by
  induction kvs generalizing st with
  | nil => exact h
  | cons kv kvs ih =>
    simp only [List.any_cons, Bool.or_eq_false_iff] at hfit
    simp only [List.foldl_cons]
    exact ih _ (storePromptMember_fits st kv h hfit.1) hfit.2

/-- A value is stored into a `PromptRequest` without error exactly when it has no type
mismatch: `mismatchesPromptRequest` is the failure condition of the decoder. -/
theorem unmarshalPromptRequest_error_iff (v : JSON) (r0 : PromptRequest) :
    (∃ e, unmarshalPromptRequest v r0 = .error e) ↔ mismatchesPromptRequest v = true := by
  constructor
  · intro ⟨e, he⟩
    by_contra hm
    have hm' : mismatchesPromptRequest v = false := by simpa using hm
    cases v with
    | obj kvs =>
      have hnone := foldl_storePromptMember_fits kvs (r0, none) rfl hm'
      simp only [unmarshalPromptRequest] at he
      rcases hfold : kvs.foldl storePromptMember (r0, none) with ⟨r, saved⟩
      rw [hfold] at hnone he
      simp only at hnone
      subst hnone
      cases he
    | null => cases he
    | bool b => simp [mismatchesPromptRequest] at hm'
    | num lit => simp [mismatchesPromptRequest] at hm'
    | str s => simp [mismatchesPromptRequest] at hm'
    | arr xs => simp [mismatchesPromptRequest] at hm'
  · exact unmarshalPromptRequest_mismatch v r0

/-- A body whose first JSON value has a type mismatch against `PromptRequest` fails to
decode, whatever follows that value. -/
theorem mismatching_body_fails_to_decode (body : BodyStream) (v : JSON)
    (hfirst : firstValue body.data = some v) (hmis : mismatchesPromptRequest v = true) :
    ∃ e, decodePromptRequest body = .error e := by
  have herr := unmarshalPromptRequest_mismatch v PromptRequest.zero hmis
  unfold firstValue at hfirst
  unfold decodePromptRequest readValue
  cases hs : scanValue (2 * body.data.data.length + 2) 0 body.data.data with
  | ok w rest =>
    rw [hs] at hfirst
    cases hfirst
    by_cases hc : v.isComposite = true
    · simp only [frameValue, hc, if_true]
      exact herr
    · cases rest with
      | nil =>
        simp only [frameValue, hc]
        cases body.readErr with
        | none => exact herr
        | some e => exact ⟨_, rfl⟩
      | cons c cs =>
        simp only [frameValue, hc]
        exact herr
  | bad c ctx => rw [hs] at hfirst; cases hfirst
  | eof => rw [hs] at hfirst; cases hfirst
  | fuel => rw [hs] at hfirst; cases hfirst

/-! ## The claims -/

/-- C1: for every inbound request whose body decodes as a `PromptRequest` with an empty (or
missing) prompt, whatever its `max_tokens` and `temperature`, `predictHandler` responds with
status 400 and the message "prompt is required", and nothing is forwarded. -/
theorem C1_empty_prompt_is_rejected (backend : Backend) (r : Request) (req : PromptRequest)
    (hdec : decodePromptRequest r.Body = .ok req) (hempty : req.Prompt = "") :
    predictHandler backend ResponseWriter.new r =
        (httpError ResponseWriter.new "prompt is required" 400, []) ∧
      (predictHandler backend ResponseWriter.new r).1.status = some 400 ∧
      (predictHandler backend ResponseWriter.new r).1.body = "prompt is required\n" := by
  have h : predictHandler backend ResponseWriter.new r =
      (httpError ResponseWriter.new "prompt is required" 400, []) := by
    unfold predictHandler
    simp only [hdec, hempty, if_true]
  rw [h]
  exact ⟨rfl, rfl, rfl⟩

/-- Witness for C1: the bodies `{}` and `{"prompt":"","max_tokens":7,"temperature":0.7}`. -/
theorem C1_empty_prompt_is_rejected_witness :
    decodePromptRequest (Request.ofText "\x7b\x7d").Body = .ok PromptRequest.zero ∧
      (predictHandler (Backend.answering 200 "") ResponseWriter.new
        (Request.ofText "\x7b\x7d")).1.body = "prompt is required\n" ∧
      decodePromptRequest
        (Request.ofText "\x7b\"prompt\":\"\",\"max_tokens\":7,\"temperature\":0.7\x7d").Body =
        .ok ⟨"", 7, ⟨false, 1022, 1801439850948198⟩⟩ ∧
      (predictHandler (Backend.answering 200 "") ResponseWriter.new
        (Request.ofText "\x7b\"prompt\":\"\",\"max_tokens\":7,\"temperature\":0.7\x7d")).1.status
        = some 400 :=
  ⟨rfl,
    (C1_empty_prompt_is_rejected (Backend.answering 200 "") (Request.ofText "\x7b\x7d")
      PromptRequest.zero rfl rfl).2.2,
    rfl,
    (C1_empty_prompt_is_rejected (Backend.answering 200 "")
      (Request.ofText "\x7b\"prompt\":\"\",\"max_tokens\":7,\"temperature\":0.7\x7d")
      ⟨"", 7, ⟨false, 1022, 1801439850948198⟩⟩ rfl rfl).2.1⟩

/-- C2 as stated fails: the body `{"prompt":"hi"}}` is not valid JSON, yet it is decoded (the
decoder stops at the end of the first value), forwarded, and answered with status 200; the
body `null}` is not valid JSON either, and is answered "prompt is required". -/
theorem C2_trailing_bytes_counterexample :
    validJSON "\x7b\"prompt\":\"hi\"\x7d\x7d" = false ∧
      (predictHandler (Backend.answering 200 "\x7b\"response\":\"ok\"\x7d") ResponseWriter.new
        (Request.ofText "\x7b\"prompt\":\"hi\"\x7d\x7d")).1.status = some 200 ∧
      (predictHandler (Backend.answering 200 "\x7b\"response\":\"ok\"\x7d") ResponseWriter.new
        (Request.ofText "\x7b\"prompt\":\"hi\"\x7d\x7d")).2.length = 1 ∧
      validJSON "null\x7d" = false ∧
      (predictHandler (Backend.answering 200 "\x7b\"response\":\"ok\"\x7d") ResponseWriter.new
        (Request.ofText "null\x7d")).1.body = "prompt is required\n" :=
  ⟨rfl, rfl, rfl, rfl, rfl⟩

/-- C2 (amended): for every inbound request whose body is not syntactically valid JSON, unless
the body begins with a complete JSON object or with `null` (the decoder stops at the end of
the first value and does not examine what follows it), or whose first JSON value has a type
mismatch against `PromptRequest` (a numeric prompt, say), decoding fails, and `predictHandler`
responds with status 400 and the message "invalid request body: " followed by the decode
failure description; nothing is forwarded. -/
theorem C2_invalid_body_is_rejected (backend : Backend) (r : Request)
    (h : (validJSON r.Body.data = false ∧
          ∀ v, firstValue r.Body.data = some v → v.isObjectOrNull = false) ∨
        ∃ v, firstValue r.Body.data = some v ∧ mismatchesPromptRequest v = true) :
    ∃ e, decodePromptRequest r.Body = .error e ∧
      predictHandler backend ResponseWriter.new r =
        (httpError ResponseWriter.new ("invalid request body: " ++ e) 400, []) ∧
      (predictHandler backend ResponseWriter.new r).1.status = some 400 ∧
      (predictHandler backend ResponseWriter.new r).1.body =
        "invalid request body: " ++ e ++ "\n" := by
  have hfail : ∃ e, decodePromptRequest r.Body = .error e := by
    rcases h with ⟨hinv, hfirst⟩ | ⟨v, hv, hmis⟩
    · exact invalid_json_fails_to_decode r.Body hinv hfirst
    · exact mismatching_body_fails_to_decode r.Body v hv hmis
  obtain ⟨e, hdec⟩ := hfail
  have hw : predictHandler backend ResponseWriter.new r =
      (httpError ResponseWriter.new ("invalid request body: " ++ e) 400, []) := by
    unfold predictHandler
    simp only [hdec]
  refine ⟨e, hdec, hw, ?_, ?_⟩
  · rw [hw]; exact (httpError_new _ _).1
  · rw [hw]; exact (httpError_new _ _).2.1

/-- Witness for C2 (amended): the body `{prompt`, which is not JSON, and the numeric prompt
`{"prompt":5}`. -/
theorem C2_invalid_body_is_rejected_witness :
    validJSON "\x7bprompt" = false ∧
      firstValue "\x7bprompt" = none ∧
      (∃ e, decodePromptRequest (Request.ofText "\x7bprompt").Body = .error e ∧
        predictHandler (Backend.answering 200 "") ResponseWriter.new
            (Request.ofText "\x7bprompt") =
          (httpError ResponseWriter.new ("invalid request body: " ++ e) 400, []) ∧
        (predictHandler (Backend.answering 200 "") ResponseWriter.new
            (Request.ofText "\x7bprompt")).1.status = some 400 ∧
        (predictHandler (Backend.answering 200 "") ResponseWriter.new
            (Request.ofText "\x7bprompt")).1.body = "invalid request body: " ++ e ++ "\n") ∧
      firstValue "\x7b\"prompt\":5\x7d" = some (.obj [("prompt", .num "5")]) ∧
      mismatchesPromptRequest (.obj [("prompt", .num "5")]) = true ∧
      (∃ e, decodePromptRequest (Request.ofText "\x7b\"prompt\":5\x7d").Body = .error e ∧
        predictHandler (Backend.answering 200 "") ResponseWriter.new
            (Request.ofText "\x7b\"prompt\":5\x7d") =
          (httpError ResponseWriter.new ("invalid request body: " ++ e) 400, []) ∧
        (predictHandler (Backend.answering 200 "") ResponseWriter.new
            (Request.ofText "\x7b\"prompt\":5\x7d")).1.status = some 400 ∧
        (predictHandler (Backend.answering 200 "") ResponseWriter.new
            (Request.ofText "\x7b\"prompt\":5\x7d")).1.body =
          "invalid request body: " ++ e ++ "\n") :=
  ⟨rfl, rfl,
    C2_invalid_body_is_rejected (Backend.answering 200 "") (Request.ofText "\x7bprompt")
      (Or.inl ⟨rfl, fun v hv => by
        have hnone : (none : Option JSON) = some v := hv
        cases hnone⟩),
    rfl, rfl,
    C2_invalid_body_is_rejected (Backend.answering 200 "")
      (Request.ofText "\x7b\"prompt\":5\x7d")
      (Or.inr ⟨.obj [("prompt", .num "5")], rfl, rfl⟩)⟩

/-- C3: for every request that decodes to `req` with a non-empty prompt, the backend request
built is exactly the struct with model "qwen3:4b", prompt `req.Prompt`, stream false and
options present with `NumPredict = req.MaxTokens` and `Temperature = req.Temperature`; the
single POST carries its serialisation; and when the body names neither `max_tokens` nor
`temperature`, the two options are 0 and 0.0. -/
theorem C3_backend_request_is_fixed (backend : Backend) (r : Request) (req : PromptRequest)
    (hdec : decodePromptRequest r.Body = .ok req) (hp : req.Prompt ≠ "") :
    ollamaRequest "qwen3:4b" req =
        { Model := "qwen3:4b", Prompt := req.Prompt, Stream := false,
          Options := some { NumPredict := req.MaxTokens, Temperature := req.Temperature } } ∧
      (∃ body, marshalRequest (ollamaRequest "qwen3:4b" req) = .ok body ∧
        (predictHandler backend ResponseWriter.new r).2 =
          [⟨"http://localhost:11434/api/generate", "application/json", body⟩]) ∧
      (∀ kvs, readValue r.Body = .ok (.obj kvs) →
        (∀ kv ∈ kvs,
          findField ["prompt", "max_tokens", "temperature"] kv.1 ≠ some "max_tokens" ∧
          findField ["prompt", "max_tokens", "temperature"] kv.1 ≠ some "temperature") →
        (ollamaRequest "qwen3:4b" req).Options =
          some { NumPredict := 0, Temperature := Float64.zero }) := by
  refine ⟨rfl, ⟨requestDoc "qwen3:4b" req, ?_, ?_⟩, ?_⟩
  · exact marshalRequest_ollamaRequest _ _ (decodePromptRequest_finite _ _ hdec)
  · exact predictHandler_calls backend _ r req hdec hp
  · intro kvs hval hkeys
    have hz := decodePromptRequest_omitted r.Body req kvs hdec hval hkeys
    simp only [ollamaRequest, hz.1, hz.2]

/-- Witness for C3: the body `{"prompt":"hi"}`, which names neither option. -/
theorem C3_backend_request_is_fixed_witness :
    decodePromptRequest (Request.ofText "\x7b\"prompt\":\"hi\"\x7d").Body =
        .ok ⟨"hi", 0, Float64.zero⟩ ∧
      (ollamaRequest "qwen3:4b" ⟨"hi", 0, Float64.zero⟩).Options =
        some { NumPredict := 0, Temperature := Float64.zero } :=
  ⟨rfl,
    (C3_backend_request_is_fixed (Backend.answering 200 "")
      (Request.ofText "\x7b\"prompt\":\"hi\"\x7d") ⟨"hi", 0, Float64.zero⟩ rfl
      (by decide)).2.2 [("prompt", .str "hi")] rfl (by decide)⟩

/-- C4: for every request with a non-empty prompt and every text `t`, if the backend answers
the call with status 200 and a body that decodes to an `OllamaGenerateResponse` with
`Response = t`, then `callOllama` returns `t` without error and `predictHandler` responds
with status 200, `Content-Type: application/json` and a body that is the JSON object
`{"generated": t}`: the text `json.Encoder` writes for it, which reads back as the object
whose single member `generated` is `t`. -/
theorem C4_success_is_relayed (backend : Backend) (r : Request) (req : PromptRequest)
    (rb : BodyStream) (t : String)
    (hdec : decodePromptRequest r.Body = .ok req) (hp : req.Prompt ≠ "")
    (hb : ∀ call ∈ (predictHandler backend ResponseWriter.new r).2,
      backend call = .ok ⟨200, rb⟩)
    (hresp : decodeOllamaResponse rb = .ok ⟨t⟩) :
    (callOllama backend "qwen3:4b" req).1 = .ok t ∧
      (predictHandler backend ResponseWriter.new r).1.status = some 200 ∧
      (predictHandler backend ResponseWriter.new r).1.header.Get "Content-Type" =
        "application/json" ∧
      (predictHandler backend ResponseWriter.new r).1.body =
        marshalAPIResponse ⟨t⟩ ++ "\n" ∧
      readValue ⟨(predictHandler backend ResponseWriter.new r).1.body, none⟩ =
        .ok (.obj [("generated", .str t)]) := by
  have hfin := decodePromptRequest_finite _ _ hdec
  have hcall := hb _ (by
    rw [predictHandler_calls backend _ r req hdec hp]; exact List.mem_singleton.2 rfl)
  have hres : (callOllama backend "qwen3:4b" req).1 = .ok t := by
    rw [callOllama_result backend _ req hfin, hcall]
    simp [hresp]
  rw [predictHandler_forwarded backend _ r req hdec hp, hres]
  have hbody : (({ ResponseWriter.new with
      header := ResponseWriter.new.header.Set "Content-Type" "application/json" } :
        ResponseWriter).Write (marshalAPIResponse ⟨t⟩ ++ "\n")).body =
      marshalAPIResponse ⟨t⟩ ++ "\n" := by
    simp [ResponseWriter.Write, ResponseWriter.WriteHeader, ResponseWriter.new]
  refine ⟨rfl, rfl, rfl, hbody, ?_⟩
  simp only [hbody]
  exact readValue_marshalAPIResponse t

/-- Witness for C4: the backend body `{"response":"hello"}` gives the caller the body
`{"generated":"hello"}`; further members of the backend body are ignored. -/
theorem C4_success_is_relayed_witness :
    decodeOllamaResponse ⟨"\x7b\"response\":\"hello\"\x7d", none⟩ = .ok ⟨"hello"⟩ ∧
      (predictHandler (Backend.answering 200 "\x7b\"response\":\"hello\"\x7d") ResponseWriter.new
        (Request.ofText "\x7b\"prompt\":\"hi\"\x7d")).1.body =
        "\x7b\"generated\":\"hello\"\x7d" ++ "\n" ∧
      decodeOllamaResponse
        ⟨"\x7b\"model\":\"qwen3:4b\",\"response\":\"hello\",\"done\":true\x7d", none⟩ =
        .ok ⟨"hello"⟩ ∧
      (predictHandler
        (Backend.answering 200 "\x7b\"model\":\"qwen3:4b\",\"response\":\"hello\",\"done\":true\x7d")
        ResponseWriter.new (Request.ofText "\x7b\"prompt\":\"hi\"\x7d")).1.body =
        "\x7b\"generated\":\"hello\"\x7d" ++ "\n" :=
  ⟨rfl,
    (C4_success_is_relayed (Backend.answering 200 "\x7b\"response\":\"hello\"\x7d")
      (Request.ofText "\x7b\"prompt\":\"hi\"\x7d") ⟨"hi", 0, Float64.zero⟩
      ⟨"\x7b\"response\":\"hello\"\x7d", none⟩ "hello" rfl (by decide)
      (fun _ _ => rfl) rfl).2.2.2.1,
    rfl,
    (C4_success_is_relayed
      (Backend.answering 200 "\x7b\"model\":\"qwen3:4b\",\"response\":\"hello\",\"done\":true\x7d")
      (Request.ofText "\x7b\"prompt\":\"hi\"\x7d") ⟨"hi", 0, Float64.zero⟩
      ⟨"\x7b\"model\":\"qwen3:4b\",\"response\":\"hello\",\"done\":true\x7d", none⟩ "hello" rfl
      (by decide) (fun _ _ => rfl) rfl).2.2.2.1⟩

/-- C5 as stated fails in its last part: when reading the backend body fails after some bytes
have arrived, those bytes, not the empty text, are embedded in the error. -/
theorem C5_interrupted_body_counterexample :
    (callOllama (fun _ => .ok ⟨503, ⟨"over", some "unexpected EOF"⟩⟩) "qwen3:4b"
        ⟨"hi", 0, Float64.zero⟩).1 = .error "ollama error: status=503 body=over" ∧
      (predictHandler (fun _ => .ok ⟨503, ⟨"over", some "unexpected EOF"⟩⟩) ResponseWriter.new
        (Request.ofText "\x7b\"prompt\":\"hi\"\x7d")).1.body =
        "model error: ollama error: status=503 body=over\n" ∧
      (predictHandler (fun _ => .ok ⟨503, ⟨"over", some "unexpected EOF"⟩⟩) ResponseWriter.new
        (Request.ofText "\x7b\"prompt\":\"hi\"\x7d")).1.body ≠
        "model error: ollama error: status=503 body=\n" :=
  ⟨rfl, rfl, by decide⟩

/-- C5 (amended): for every request with a non-empty prompt, every backend status code
`c ≠ 200` and every backend body, `callOllama` fails with the error
"ollama error: status=<c> body=<b>", where `<c>` is the decimal status code and `<b>` the
body bytes received (all of them, or those that arrived before a read failure, which is
otherwise ignored), and `predictHandler` responds with status 500 and a message that contains
both "status=<c>" and `<b>`. -/
theorem C5_bad_status_is_surfaced (backend : Backend) (r : Request) (req : PromptRequest)
    (c : Int) (rb : BodyStream)
    (hdec : decodePromptRequest r.Body = .ok req) (hp : req.Prompt ≠ "")
    (hb : ∀ call ∈ (predictHandler backend ResponseWriter.new r).2,
      backend call = .ok ⟨c, rb⟩)
    (hc : c ≠ 200) :
    (callOllama backend "qwen3:4b" req).1 =
        .error ("ollama error: status=" ++ formatInt c ++ " body=" ++ rb.data) ∧
      (predictHandler backend ResponseWriter.new r).1 =
        httpError ResponseWriter.new
          ("model error: " ++ ("ollama error: status=" ++ formatInt c ++ " body=" ++ rb.data))
          500 ∧
      (predictHandler backend ResponseWriter.new r).1.status = some 500 ∧
      ("status=" ++ formatInt c).data <:+:
        ("model error: " ++ ("ollama error: status=" ++ formatInt c ++ " body=" ++ rb.data)).data ∧
      rb.data.data <:+:
        ("model error: " ++ ("ollama error: status=" ++ formatInt c ++ " body=" ++ rb.data)).data
    := by
  have hfin := decodePromptRequest_finite _ _ hdec
  have hcall := hb _ (by
    rw [predictHandler_calls backend _ r req hdec hp]; exact List.mem_singleton.2 rfl)
  have hres : (callOllama backend "qwen3:4b" req).1 =
      .error ("ollama error: status=" ++ formatInt c ++ " body=" ++ rb.data) := by
    rw [callOllama_result backend _ req hfin, hcall]
    simp [hc]
  have hw : (predictHandler backend ResponseWriter.new r).1 =
      httpError ResponseWriter.new
        ("model error: " ++ ("ollama error: status=" ++ formatInt c ++ " body=" ++ rb.data))
        500 := by
    rw [predictHandler_forwarded backend _ r req hdec hp, hres]
  refine ⟨hres, hw, ?_, ?_, ?_⟩
  · rw [hw]; exact (httpError_new _ _).1
  · rw [data_formatted_error]
    exact ⟨"model error: ollama error: ".data, " body=".data ++ rb.data.data, by
      simp only [List.append_assoc]⟩
  · rw [data_formatted_error]
    exact ⟨"model error: ollama error: ".data ++ ("status=" ++ formatInt c).data ++ " body=".data,
      [], by simp only [List.append_nil]⟩

/-- Witness for C5 (amended): backend status 503 with body "overloaded". -/
theorem C5_bad_status_is_surfaced_witness :
    decodePromptRequest (Request.ofText "\x7b\"prompt\":\"hi\"\x7d").Body =
        .ok ⟨"hi", 0, Float64.zero⟩ ∧
      (503 : Int) ≠ 200 ∧
      (predictHandler (Backend.answering 503 "overloaded") ResponseWriter.new
        (Request.ofText "\x7b\"prompt\":\"hi\"\x7d")).1 =
        httpError ResponseWriter.new "model error: ollama error: status=503 body=overloaded" 500 :=
  ⟨rfl, by decide,
    (C5_bad_status_is_surfaced (Backend.answering 503 "overloaded")
      (Request.ofText "\x7b\"prompt\":\"hi\"\x7d") ⟨"hi", 0, Float64.zero⟩ 503
      ⟨"overloaded", none⟩ rfl (by decide) (fun _ _ => rfl) (by decide)).2.1⟩

/-- C6: for every request with a non-empty prompt, whenever `callOllama` fails with failure
description `e`, whatever the cause, `predictHandler` responds with status 500 and the message
is exactly "model error: " followed by `e`. -/
theorem C6_backend_failure_is_surfaced (backend : Backend) (r : Request) (req : PromptRequest)
    (e : String) (hdec : decodePromptRequest r.Body = .ok req) (hp : req.Prompt ≠ "")
    (hfail : (callOllama backend "qwen3:4b" req).1 = .error e) :
    (predictHandler backend ResponseWriter.new r).1 =
        httpError ResponseWriter.new ("model error: " ++ e) 500 ∧
      (predictHandler backend ResponseWriter.new r).1.status = some 500 ∧
      (predictHandler backend ResponseWriter.new r).1.body = "model error: " ++ e ++ "\n" := by
  have h : (predictHandler backend ResponseWriter.new r).1 =
      httpError ResponseWriter.new ("model error: " ++ e) 500 := by
    rw [predictHandler_forwarded backend _ r req hdec hp, hfail]
  rw [h]
  exact ⟨rfl, (httpError_new _ _).1, (httpError_new _ _).2.1⟩

/-- Witness for C6: a transport failure, and a 200 answer whose body is not JSON. -/
theorem C6_backend_failure_is_surfaced_witness :
    (callOllama (fun _ => .error "connection refused") "qwen3:4b" ⟨"hi", 0, Float64.zero⟩).1 =
        .error "connection refused" ∧
      (predictHandler (fun _ => .error "connection refused") ResponseWriter.new
        (Request.ofText "\x7b\"prompt\":\"hi\"\x7d")).1.body =
        "model error: " ++ "connection refused" ++ "\n" ∧
      (callOllama (Backend.answering 200 "oops") "qwen3:4b" ⟨"hi", 0, Float64.zero⟩).1 =
        .error "invalid character \x27o\x27 looking for beginning of value" ∧
      (predictHandler (Backend.answering 200 "oops") ResponseWriter.new
        (Request.ofText "\x7b\"prompt\":\"hi\"\x7d")).1.body =
        "model error: " ++ "invalid character \x27o\x27 looking for beginning of value" ++ "\n" :=
  ⟨rfl,
    (C6_backend_failure_is_surfaced (fun _ => .error "connection refused")
      (Request.ofText "\x7b\"prompt\":\"hi\"\x7d") ⟨"hi", 0, Float64.zero⟩ _ rfl (by decide)
      rfl).2.2,
    rfl,
    (C6_backend_failure_is_surfaced (Backend.answering 200 "oops")
      (Request.ofText "\x7b\"prompt\":\"hi\"\x7d") ⟨"hi", 0, Float64.zero⟩ _ rfl (by decide)
      rfl).2.2⟩

/-- C7: for every inbound request and every backend, `predictHandler` issues no backend call
when the body fails to decode or the prompt is empty, and exactly one backend call otherwise,
whether that call succeeds or fails. -/
theorem C7_at_most_one_backend_call (backend : Backend) (w : ResponseWriter) (r : Request) :
    (predictHandler backend w r).2.length =
      match decodePromptRequest r.Body with
      | .error _ => 0
      | .ok req => if req.Prompt = "" then 0 else 1 := by
  cases hdec : decodePromptRequest r.Body with
  | error e =>
    unfold predictHandler
    simp only [hdec, List.length_nil]
  | ok req =>
    by_cases hp : req.Prompt = ""
    · unfold predictHandler
      simp only [hdec, hp, if_true, List.length_nil]
    · rw [predictHandler_calls backend w r req hdec hp]
      simp only [hp, if_false, List.length_singleton]

/-- C8: for every inbound request and every backend behaviour, `predictHandler` produces
exactly one of three outcomes: status 200 with the `APIResponse` payload, an error message
with status 400, or an error message with status 500. The status is 200 exactly when the body
decodes, the prompt is non-empty and the backend call succeeds; it is 400 exactly when
decoding fails or the prompt is empty; it is 500 exactly when the backend call fails. -/
theorem C8_exactly_one_outcome (backend : Backend) (r : Request) :
    ((∃ t, (predictHandler backend ResponseWriter.new r).1 =
          ⟨[("Content-Type", "application/json")], some 200,
            marshalAPIResponse ⟨t⟩ ++ "\n"⟩) ∨
        (∃ msg, (predictHandler backend ResponseWriter.new r).1 =
          httpError ResponseWriter.new msg 400) ∨
        (∃ msg, (predictHandler backend ResponseWriter.new r).1 =
          httpError ResponseWriter.new msg 500)) ∧
      ((predictHandler backend ResponseWriter.new r).1.status = some 200 ↔
        ∃ req t, decodePromptRequest r.Body = .ok req ∧ req.Prompt ≠ "" ∧
          (callOllama backend "qwen3:4b" req).1 = .ok t) ∧
      ((predictHandler backend ResponseWriter.new r).1.status = some 400 ↔
        ((∃ e, decodePromptRequest r.Body = .error e) ∨
          ∃ req, decodePromptRequest r.Body = .ok req ∧ req.Prompt = "")) ∧
      ((predictHandler backend ResponseWriter.new r).1.status = some 500 ↔
        ∃ req e, decodePromptRequest r.Body = .ok req ∧ req.Prompt ≠ "" ∧
          (callOllama backend "qwen3:4b" req).1 = .error e) := by
  cases hdec : decodePromptRequest r.Body with
  | error e =>
    have h : (predictHandler backend ResponseWriter.new r).1 =
        httpError ResponseWriter.new ("invalid request body: " ++ e) 400 := by
      unfold predictHandler
      simp only [hdec]
    rw [h]
    refine ⟨Or.inr (Or.inl ⟨_, rfl⟩), ?_, ?_, ?_⟩
    · simp [(httpError_new _ 400).1]
    · simp [(httpError_new _ 400).1]
    · simp [(httpError_new _ 400).1]
  | ok req =>
    by_cases hp : req.Prompt = ""
    · have h : (predictHandler backend ResponseWriter.new r).1 =
          httpError ResponseWriter.new "prompt is required" 400 := by
        unfold predictHandler
        simp only [hdec, hp, if_true]
      rw [h]
      refine ⟨Or.inr (Or.inl ⟨_, rfl⟩), ?_, ?_, ?_⟩
      · simp [(httpError_new _ 400).1, hp]
      · simp [(httpError_new _ 400).1, hp]
      · simp [(httpError_new _ 400).1, hp]
    · rw [predictHandler_forwarded backend _ r req hdec hp]
      cases hres : (callOllama backend "qwen3:4b" req).1 with
      | error e =>
        refine ⟨Or.inr (Or.inr ⟨_, rfl⟩), ?_, ?_, ?_⟩
        · simp [(httpError_new _ 500).1, hp, hres]
        · simp [(httpError_new _ 500).1, hp]
        · simp [(httpError_new _ 500).1, hp, hres]
      | ok t =>
        have hw : (({ ResponseWriter.new with
            header := ResponseWriter.new.header.Set "Content-Type" "application/json" } :
              ResponseWriter).Write (marshalAPIResponse ⟨t⟩ ++ "\n")) =
            ⟨[("Content-Type", "application/json")], some 200,
              marshalAPIResponse ⟨t⟩ ++ "\n"⟩ := by
          simp [ResponseWriter.Write, ResponseWriter.WriteHeader, ResponseWriter.new,
            Header.Set, Header.Del]
        simp only [hw]
        refine ⟨Or.inl ⟨t, rfl⟩, ?_, ?_, ?_⟩
        · simp [hp, hres]
        · simp [hp]
        · simp [hp, hres]

/-- C9 as stated fails: for the body `{"prompt":"hi"}` the `options` member of the document
sent to the backend is the empty object, with neither `num_predict` nor `temperature`. -/
theorem C9_empty_options_counterexample :
    (predictHandler (Backend.answering 200 "") ResponseWriter.new
        (Request.ofText "\x7b\"prompt\":\"hi\"\x7d")).2.map
        (fun call => (call.body.member? "options").map Doc.keys) = [some []] ∧
      (predictHandler (Backend.answering 200 "") ResponseWriter.new
        (Request.ofText "\x7b\"prompt\":\"hi\",\"max_tokens\":0,\"temperature\":0.7\x7d")).2.map
        (fun call => (call.body.member? "options").map Doc.keys) = [some ["temperature"]] :=
  ⟨rfl, rfl⟩

/-- C9 (amended): for every request that decodes to `req` with a non-empty prompt, the JSON
document `callOllama` serialises and sends is an object with the members `model` (string),
`prompt` (string), `stream` (false) and `options`; `options` is always present and is an
object that carries an integer member `num_predict` exactly when `max_tokens` is not 0 and a
number member `temperature` exactly when `temperature` is not 0. -/
theorem C9_sent_document (backend : Backend) (r : Request) (req : PromptRequest)
    (hdec : decodePromptRequest r.Body = .ok req) (hp : req.Prompt ≠ "") :
    (predictHandler backend ResponseWriter.new r).2 =
      [⟨"http://localhost:11434/api/generate", "application/json",
        .obj [("model", .str "qwen3:4b"), ("prompt", .str req.Prompt), ("stream", .bool false),
          ("options", .obj
            ((if req.MaxTokens = 0 then [] else [("num_predict", Doc.int req.MaxTokens)]) ++
              (if req.Temperature.isZero then []
                else [("temperature", Doc.float req.Temperature)])))]⟩] :=
  predictHandler_calls backend _ r req hdec hp

/-- Witness for C9 (amended): with `max_tokens` 200 and `temperature` 0.7 both members are
written. -/
theorem C9_sent_document_witness :
    (predictHandler (Backend.answering 200 "") ResponseWriter.new
      (Request.ofText "\x7b\"prompt\":\"hi\",\"max_tokens\":200,\"temperature\":0.7\x7d")).2 =
      [⟨"http://localhost:11434/api/generate", "application/json",
        .obj [("model", .str "qwen3:4b"), ("prompt", .str "hi"), ("stream", .bool false),
          ("options", .obj [("num_predict", .int 200),
            ("temperature", .float ⟨false, 1022, 1801439850948198⟩)])]⟩] :=
  C9_sent_document (Backend.answering 200 "")
    (Request.ofText "\x7b\"prompt\":\"hi\",\"max_tokens\":200,\"temperature\":0.7\x7d")
    ⟨"hi", 200, ⟨false, 1022, 1801439850948198⟩⟩ rfl (by decide)

/-- C10: `predictHandler` performs no range validation on `max_tokens` or `temperature`: for
every request that decodes to `req` with a non-empty prompt, whatever the two values are, the
response is not a 400, and the values are forwarded unchanged as `Options.NumPredict` and
`Options.Temperature` of the request that is serialised and posted. -/
theorem C10_no_range_validation (backend : Backend) (r : Request) (req : PromptRequest)
    (hdec : decodePromptRequest r.Body = .ok req) (hp : req.Prompt ≠ "") :
    (predictHandler backend ResponseWriter.new r).1.status ≠ some 400 ∧
      (ollamaRequest "qwen3:4b" req).Options =
        some { NumPredict := req.MaxTokens, Temperature := req.Temperature } ∧
      ∃ body, marshalRequest (ollamaRequest "qwen3:4b" req) = .ok body ∧
        (predictHandler backend ResponseWriter.new r).2.map (fun call => call.body) = [body] ∧
        (req.MaxTokens ≠ 0 →
          (body.member? "options").bind (fun o => o.member? "num_predict") =
            some (.int req.MaxTokens)) ∧
        (req.Temperature.isZero = false →
          (body.member? "options").bind (fun o => o.member? "temperature") =
            some (.float req.Temperature)) := by
  refine ⟨?_, rfl, requestDoc "qwen3:4b" req, ?_, ?_, ?_, ?_⟩
  · rw [predictHandler_forwarded backend _ r req hdec hp]
    split
    · rw [(httpError_new _ 500).1]; decide
    · simp [ResponseWriter.Write, ResponseWriter.WriteHeader, ResponseWriter.new]
  · exact marshalRequest_ollamaRequest _ _ (decodePromptRequest_finite _ _ hdec)
  · rw [predictHandler_calls backend _ r req hdec hp]; rfl
  · intro hm
    simp [requestDoc, Doc.member?, hm]
  · intro ht
    by_cases hm : req.MaxTokens = 0 <;> simp [requestDoc, Doc.member?, hm, ht]

/-- Witness for C10: a negative `max_tokens` and a negative `temperature` are forwarded. -/
theorem C10_no_range_validation_witness :
    (predictHandler (Backend.answering 200 "") ResponseWriter.new
        (Request.ofText
          "\x7b\"prompt\":\"hi\",\"max_tokens\":-5,\"temperature\":-1e3\x7d")).1.status
        ≠ some 400 ∧
      (ollamaRequest "qwen3:4b" ⟨"hi", -5, ⟨true, 1032, 4292493394837504⟩⟩).Options =
        some { NumPredict := -5, Temperature := ⟨true, 1032, 4292493394837504⟩ } :=
  ⟨(C10_no_range_validation (Backend.answering 200 "")
      (Request.ofText "\x7b\"prompt\":\"hi\",\"max_tokens\":-5,\"temperature\":-1e3\x7d")
      ⟨"hi", -5, ⟨true, 1032, 4292493394837504⟩⟩ rfl (by decide)).1,
    (C10_no_range_validation (Backend.answering 200 "")
      (Request.ofText "\x7b\"prompt\":\"hi\",\"max_tokens\":-5,\"temperature\":-1e3\x7d")
      ⟨"hi", -5, ⟨true, 1032, 4292493394837504⟩⟩ rfl (by decide)).2.1⟩

end Chat
